import Mathlib

set_option maxRecDepth 16384

/-!
Verification of the GitHub user dashboard / recommendation repository.

The development shallowly embeds the two Python source files:

* `Recommendation_dashboard.py` — pipeline 1: `get_json` (with its 403
  rate-limit handling), the list/language/commit helpers,
  `fetch_and_store_user`, and the analyzer `get_recommendations`.
* `dashboard.py` — pipeline 2: `get_commit_count` (Link-header pagination),
  `fetch_user_data`, and the store interaction (`find_one` / `insert_one`).

HTTP traffic is modelled by explicit response oracles (one response per
endpoint, indexed by attempt number where a function can issue the same
request more than once).  The document store is modelled as a list of
documents, each document an insertion-ordered association list of fields.
Floating point cosine similarity is modelled by exact real arithmetic: a
similarity score is carried as the pair `(num, den)` with mathematical value
`num / sqrt den` (`scoreVal`), which for the binary incidence vectors built
by `MultiLabelBinarizer` is exactly the cosine of the two rows.
-/

/- ===================================================================
   Part 1 — Analyzer (`Recommendation_dashboard.py`, `get_recommendations`)
   =================================================================== -/

/-- One row of the corpus dataframe handed to `get_recommendations`:
the columns the function reads (`Login`, `Profile URL`, `Avatar URL`,
`LanguagesList`). -/
structure RecRow where
  login : String
  profileUrl : String
  avatarUrl : String
  languagesList : List String
deriving DecidableEq

/-- Placeholder row used for (provably unreachable) out-of-range indexing. -/
def defaultRow : RecRow := { login := "", profileUrl := "", avatarUrl := "", languagesList := [] }

/-- Dot product of the two binary incidence rows produced by
`MultiLabelBinarizer` for the label lists `a` and `b`: the number of distinct
labels they share. -/
def dotCount (a b : List String) : Nat :=
  (a.dedup.filter (fun l => decide (l ∈ b))).length

/-- Squared Euclidean norm of the binary incidence row of `a`: its number of
distinct labels. -/
def normSq (a : List String) : Nat := a.dedup.length

/-- The exact representation `(num, den)` of `cosine_similarity` between the
binary rows of `a` and `b`: the mathematical value is `num / sqrt den`. -/
def simPair (a b : List String) : Nat × Nat := (dotCount a b, normSq a * normSq b)

/-- The real value of a similarity score represented as `(num, den)`:
`num / sqrt den`, with the `sklearn` convention that a zero row has
similarity `0` (a zero denominator only arises from a zero row, and then
`num = 0` as well). -/
noncomputable def scoreVal (num den : Nat) : ℝ :=
  if den = 0 then 0 else (num : ℝ) / Real.sqrt (den : ℝ)

/-- Decidable comparison of two represented scores, agreeing with `≤` on
their real values (`scoreLeB_iff`). -/
def scoreLeB (a b : Nat × Nat) : Bool :=
  decide (a.1 = 0 ∨ a.2 = 0 ∨ (b.1 ≠ 0 ∧ b.2 ≠ 0 ∧ a.1 ^ 2 * b.2 ≤ b.1 ^ 2 * a.2))

/-- The ordering used for `sorted(..., key=lambda x: x[1], reverse=True)`
on `(index, score)` pairs: descending by score value. -/
def Rdesc (p q : Nat × Nat × Nat) : Prop := scoreLeB q.2 p.2 = true

instance : DecidableRel Rdesc :=
  fun p q => inferInstanceAs (Decidable (scoreLeB q.2 p.2 = true))

/-- One entry of the recommendation list built by `get_recommendations`.
The similarity score is carried exactly as `(scoreNum, scoreDen)`; the
Python code additionally rounds the displayed score to three decimals. -/
structure RecEntry where
  login : String
  profileUrl : String
  commonLanguages : List String
  scoreNum : Nat
  scoreDen : Nat
  avatarUrl : String
deriving DecidableEq

/-- `user_idx = df.index[df['Login'] == username][0]`. -/
def targetIdx (df : List RecRow) (username : String) : Nat :=
  df.findIdx (fun r => decide (r.login = username))

/-- The target user's row. -/
def targetRow (df : List RecRow) (username : String) : RecRow :=
  df.getD (targetIdx df username) defaultRow

/-- `sim_scores = list(enumerate(similarity[user_idx]))`: the indexed
similarity row of the target against every row of the corpus. -/
def simScoresOf (df : List RecRow) (username : String) : List (Nat × Nat × Nat) :=
  (List.range df.length).map
    (fun i => (i, simPair (targetRow df username).languagesList
      (df.getD i defaultRow).languagesList))

/-- `[(idx, score) for idx, score in sim_scores if idx != user_idx]`. -/
def keptOf (df : List RecRow) (username : String) : List (Nat × Nat × Nat) :=
  (simScoresOf df username).filter (fun p => decide (p.1 ≠ targetIdx df username))

/-- `sorted(sim_scores, key=lambda x: x[1], reverse=True)[:top_n]`. -/
def rankedOf (df : List RecRow) (username : String) (top_n : Nat) :
    List (Nat × Nat × Nat) :=
  (List.insertionSort Rdesc (keptOf df username)).take top_n

/-- The recommendation dictionaries appended for each surviving
`(idx, score)` pair. -/
def recsOf (df : List RecRow) (username : String) (top_n : Nat) : List RecEntry :=
  (rankedOf df username top_n).map (fun p =>
    let ru := df.getD p.1 defaultRow
    { login := ru.login
      profileUrl := ru.profileUrl
      commonLanguages := (targetRow df username).languagesList.dedup.filter
        (fun l => decide (l ∈ ru.languagesList))
      scoreNum := p.2.1
      scoreDen := p.2.2
      avatarUrl := ru.avatarUrl })

/-- `get_recommendations(df, username, top_n)` from
`Recommendation_dashboard.py` (the Python default is `top_n=10`):
if the login is absent return `None`; otherwise compute the cosine
similarity of the target row against every row of the binarized language
matrix, drop the target's own index, sort descending by score, truncate to
`top_n` and build the result entries. -/
def get_recommendations (df : List RecRow) (username : String) (top_n : Nat) :
    Option (List RecEntry) :=
  if username ∈ df.map RecRow.login then some (recsOf df username top_n) else none

/- Basic score lemmas. -/

theorem scoreVal_nonneg (n d : Nat) : 0 ≤ scoreVal n d := by
  unfold scoreVal
  split
  · exact le_refl 0
  · exact div_nonneg (Nat.cast_nonneg n) (Real.sqrt_nonneg _)

theorem scoreVal_num_zero (d : Nat) : scoreVal 0 d = 0 := by
  unfold scoreVal
  split <;> simp

theorem scoreVal_den_zero (n : Nat) : scoreVal n 0 = 0 := by
  simp [scoreVal]

theorem scoreVal_pos {n d : Nat} (hn : n ≠ 0) (hd : d ≠ 0) : 0 < scoreVal n d := by
  unfold scoreVal
  rw [if_neg hd]
  apply div_pos
  · exact_mod_cast Nat.pos_of_ne_zero hn
  · exact Real.sqrt_pos.mpr (by exact_mod_cast Nat.pos_of_ne_zero hd)

theorem scoreVal_le_one {n d : Nat} (h : n ^ 2 ≤ d) : scoreVal n d ≤ 1 := by
  unfold scoreVal
  split
  · exact zero_le_one
  · rename_i hd
    have hdpos : (0 : ℝ) < Real.sqrt (d : ℝ) :=
      Real.sqrt_pos.mpr (by exact_mod_cast Nat.pos_of_ne_zero hd)
    rw [div_le_one hdpos]
    rw [Real.le_sqrt (Nat.cast_nonneg n) (Nat.cast_nonneg d)]
    exact_mod_cast h

theorem scoreVal_le_iff_of_pos {n1 d1 n2 d2 : Nat} (hn1 : n1 ≠ 0) (hd1 : d1 ≠ 0)
    (hn2 : n2 ≠ 0) (hd2 : d2 ≠ 0) :
    scoreVal n1 d1 ≤ scoreVal n2 d2 ↔ n1 ^ 2 * d2 ≤ n2 ^ 2 * d1 := by
  have hd1R : (0 : ℝ) < Real.sqrt (d1 : ℝ) :=
    Real.sqrt_pos.mpr (by exact_mod_cast Nat.pos_of_ne_zero hd1)
  have hd2R : (0 : ℝ) < Real.sqrt (d2 : ℝ) :=
    Real.sqrt_pos.mpr (by exact_mod_cast Nat.pos_of_ne_zero hd2)
  have e1 : ((n1 : ℝ) * Real.sqrt (d2 : ℝ)) * ((n1 : ℝ) * Real.sqrt (d2 : ℝ))
      = (n1 : ℝ) ^ 2 * (d2 : ℝ) := by
    rw [mul_mul_mul_comm, Real.mul_self_sqrt (Nat.cast_nonneg d2)]
    ring
  have e2 : ((n2 : ℝ) * Real.sqrt (d1 : ℝ)) * ((n2 : ℝ) * Real.sqrt (d1 : ℝ))
      = (n2 : ℝ) ^ 2 * (d1 : ℝ) := by
    rw [mul_mul_mul_comm, Real.mul_self_sqrt (Nat.cast_nonneg d1)]
    ring
  rw [scoreVal, scoreVal, if_neg hd1, if_neg hd2, div_le_div_iff₀ hd1R hd2R,
    mul_self_le_mul_self_iff (by positivity) (by positivity), e1, e2]
  constructor
  · intro h
    exact_mod_cast h
  · intro h
    exact_mod_cast h

/-- The decidable comparison agrees with `≤` on the real score values. -/
theorem scoreLeB_iff (a b : Nat × Nat) :
    scoreLeB a b = true ↔ scoreVal a.1 a.2 ≤ scoreVal b.1 b.2 := by
  obtain ⟨n1, d1⟩ := a
  obtain ⟨n2, d2⟩ := b
  simp only [scoreLeB, decide_eq_true_eq]
  by_cases h1 : n1 = 0
  · subst h1
    simp [scoreVal_num_zero, scoreVal_nonneg]
  by_cases hd1 : d1 = 0
  · subst hd1
    simp [scoreVal_den_zero, scoreVal_nonneg, h1]
  by_cases h2 : n2 = 0
  · subst h2
    have hpos := scoreVal_pos h1 hd1
    simp only [scoreVal_num_zero]
    simp [h1, hd1, hpos.not_le]
  by_cases hd2 : d2 = 0
  · subst hd2
    have hpos := scoreVal_pos h1 hd1
    simp only [scoreVal_den_zero]
    simp [h1, hd1, h2, hpos.not_le]
  · rw [scoreVal_le_iff_of_pos h1 hd1 h2 hd2]
    simp [h1, hd1, h2, hd2]

instance : IsTotal (Nat × Nat × Nat) Rdesc :=
  ⟨fun p q => by
    rcases le_total (scoreVal q.2.1 q.2.2) (scoreVal p.2.1 p.2.2) with h | h
    · exact Or.inl (show scoreLeB q.2 p.2 = true from (scoreLeB_iff q.2 p.2).mpr h)
    · exact Or.inr (show scoreLeB p.2 q.2 = true from (scoreLeB_iff p.2 q.2).mpr h)⟩

instance : IsTrans (Nat × Nat × Nat) Rdesc :=
  ⟨fun p q r hpq hqr => by
    have h1 := (scoreLeB_iff q.2 p.2).mp hpq
    have h2 := (scoreLeB_iff r.2 q.2).mp hqr
    exact (scoreLeB_iff r.2 p.2).mpr (le_trans h2 h1)⟩

/-- The entry built for candidate index `i`. -/
def recEntryAt (df : List RecRow) (username : String) (i : Nat) : RecEntry :=
  let ru := df.getD i defaultRow
  { login := ru.login
    profileUrl := ru.profileUrl
    commonLanguages := (targetRow df username).languagesList.dedup.filter
      (fun l => decide (l ∈ ru.languagesList))
    scoreNum := dotCount (targetRow df username).languagesList ru.languagesList
    scoreDen := normSq (targetRow df username).languagesList * normSq ru.languagesList
    avatarUrl := ru.avatarUrl }

theorem get_recommendations_eq {df : List RecRow} {username : String} (top_n : Nat)
    (hmem : username ∈ df.map RecRow.login) :
    get_recommendations df username top_n = some (recsOf df username top_n) := by
  unfold get_recommendations
  rw [if_pos hmem]

theorem getD_eq_elem {α : Type} {l : List α} {i : Nat} (h : i < l.length) (d : α) :
    l.getD i d = l[i] := by
  simp [List.getD_eq_getElem?_getD, List.getElem?_eq_getElem h]

theorem targetIdx_lt_length {df : List RecRow} {username : String}
    (h : username ∈ df.map RecRow.login) : targetIdx df username < df.length := by
  obtain ⟨r, hr, hl⟩ := List.mem_map.mp h
  exact List.findIdx_lt_length_of_exists ⟨r, hr, by simp [hl]⟩

theorem targetRow_login {df : List RecRow} {username : String}
    (h : username ∈ df.map RecRow.login) : (targetRow df username).login = username := by
  have hlt := targetIdx_lt_length h
  have hlt2 : List.findIdx (fun r => decide (r.login = username)) df < df.length := hlt
  have h0 : df[List.findIdx (fun r => decide (r.login = username)) df]?
      = some (df[List.findIdx (fun r => decide (r.login = username)) df]) :=
    List.getElem?_eq_getElem hlt2
  have hp := List.findIdx_of_getElem?_eq_some h0
  rw [targetRow, getD_eq_elem hlt]
  exact of_decide_eq_true hp

theorem mem_ranked {df : List RecRow} {username : String} {top_n : Nat}
    {p : Nat × Nat × Nat} (hp : p ∈ rankedOf df username top_n) :
    p.1 < df.length ∧ p.1 ≠ targetIdx df username ∧
      p.2 = simPair (targetRow df username).languagesList
        (df.getD p.1 defaultRow).languagesList := by
  have h1 : p ∈ List.insertionSort Rdesc (keptOf df username) := List.mem_of_mem_take hp
  have h2 : p ∈ keptOf df username := (List.perm_insertionSort Rdesc _).mem_iff.mp h1
  obtain ⟨h3, h4⟩ := List.mem_filter.mp h2
  obtain ⟨i, hir, hie⟩ := List.mem_map.mp h3
  have hi : i < df.length := List.mem_range.mp hir
  refine ⟨?_, of_decide_eq_true h4, ?_⟩
  · rw [← hie]
    exact hi
  · rw [← hie]

theorem mem_recsOf {df : List RecRow} {username : String} {top_n : Nat}
    {e : RecEntry} (he : e ∈ recsOf df username top_n) :
    ∃ i, i < df.length ∧ i ≠ targetIdx df username ∧ e = recEntryAt df username i := by
  obtain ⟨p, hp, hpe⟩ := List.mem_map.mp he
  obtain ⟨hlt, hne, hsim⟩ := mem_ranked hp
  refine ⟨p.1, hlt, hne, ?_⟩
  rw [← hpe]
  obtain ⟨i, s⟩ := p
  simp only at hsim
  subst hsim
  simp [recEntryAt, simPair]

theorem dotCount_le_left (a b : List String) : dotCount a b ≤ normSq a :=
  List.length_filter_le _ _

theorem dotCount_le_right (a b : List String) : dotCount a b ≤ normSq b := by
  have hnd : (a.dedup.filter (fun l => decide (l ∈ b))).Nodup :=
    (List.nodup_dedup a).filter _
  have hsub : (a.dedup.filter (fun l => decide (l ∈ b))) ⊆ b.dedup := by
    intro x hx
    have hx2 := List.mem_filter.mp hx
    rw [List.mem_dedup]
    exact of_decide_eq_true hx2.2
  exact (List.subperm_of_subset hnd hsub).length_le

theorem dotCount_sq_le (a b : List String) : dotCount a b ^ 2 ≤ normSq a * normSq b := by
  rw [pow_two]
  exact Nat.mul_le_mul (dotCount_le_left a b) (dotCount_le_right a b)

theorem entry_login_ne {df : List RecRow} {username : String}
    (hnd : (df.map RecRow.login).Nodup) (hmem : username ∈ df.map RecRow.login)
    {i : Nat} (hi : i < df.length) (hne : i ≠ targetIdx df username) :
    (recEntryAt df username i).login ≠ username := by
  have hu := targetIdx_lt_length hmem
  have htl := targetRow_login hmem
  intro hcontra
  apply hne
  have hi' : i < (df.map RecRow.login).length := by simpa using hi
  have hu' : targetIdx df username < (df.map RecRow.login).length := by simpa using hu
  have e1 : (df.map RecRow.login)[i] = (recEntryAt df username i).login := by
    rw [List.getElem_map]
    show df[i].login = (df.getD i defaultRow).login
    rw [getD_eq_elem hi]
  have e2 : (df.map RecRow.login)[targetIdx df username] = (targetRow df username).login := by
    rw [List.getElem_map]
    show df[targetIdx df username].login = (df.getD (targetIdx df username) defaultRow).login
    rw [getD_eq_elem hu]
  have : (df.map RecRow.login)[i] = (df.map RecRow.login)[targetIdx df username] := by
    rw [e1, e2, htl, hcontra]
  exact (List.Nodup.getElem_inj_iff hnd).mp this

/-- C1: for every corpus dataframe (logins unique, per the data-model
invariant that `Login` is the key) containing the target login,
`get_recommendations` succeeds, never returns the target user itself, and
every returned similarity score value lies in `[-1, 1]`; and for a corpus of
exactly two users whose language sets are disjoint, the returned score for
the other user is `0`. -/
theorem C1_no_self_and_bounded_scores :
    (∀ (df : List RecRow) (username : String) (top_n : Nat),
      (df.map RecRow.login).Nodup → username ∈ df.map RecRow.login →
      ∃ recs, get_recommendations df username top_n = some recs ∧
        (∀ e ∈ recs, e.login ≠ username) ∧
        (∀ e ∈ recs, -1 ≤ scoreVal e.scoreNum e.scoreDen ∧
          scoreVal e.scoreNum e.scoreDen ≤ 1)) ∧
    (∀ r1 r2 : RecRow, (∀ l ∈ r1.languagesList, l ∉ r2.languagesList) →
      ∃ e, get_recommendations [r1, r2] r1.login 10 = some [e] ∧
        e.login = r2.login ∧ scoreVal e.scoreNum e.scoreDen = 0) := by
  constructor
  · intro df username top_n hnd hmem
    refine ⟨recsOf df username top_n, get_recommendations_eq top_n hmem, ?_, ?_⟩
    · intro e he
      obtain ⟨i, hi, hne, hei⟩ := mem_recsOf he
      rw [hei]
      exact entry_login_ne hnd hmem hi hne
    · intro e he
      obtain ⟨i, hi, hne, hei⟩ := mem_recsOf he
      rw [hei]
      refine ⟨le_trans (by norm_num) (scoreVal_nonneg _ _), ?_⟩
      exact scoreVal_le_one (dotCount_sq_le _ _)
  · intro r1 r2 hdisj
    have hmem : r1.login ∈ [r1, r2].map RecRow.login := by simp
    have huidx : targetIdx [r1, r2] r1.login = 0 := by
      simp [targetIdx, List.findIdx_cons]
    have htarget : targetRow [r1, r2] r1.login = r1 := by
      rw [targetRow, huidx]
      rfl
    have hdot : dotCount r1.languagesList r2.languagesList = 0 := by
      simp only [dotCount, List.length_eq_zero]
      rw [List.filter_eq_nil_iff]
      intro a ha
      intro hc
      exact hdisj a (List.mem_dedup.mp ha) (of_decide_eq_true hc)
    have hss : simScoresOf [r1, r2] r1.login =
        [(0, simPair r1.languagesList r1.languagesList),
         (1, simPair r1.languagesList r2.languagesList)] := by
      simp [simScoresOf, htarget]
      rfl
    have hkept : keptOf [r1, r2] r1.login =
        [(1, simPair r1.languagesList r2.languagesList)] := by
      rw [keptOf, hss, huidx]
      rfl
    have hranked : rankedOf [r1, r2] r1.login 10 =
        [(1, simPair r1.languagesList r2.languagesList)] := by
      rw [rankedOf, hkept]
      rfl
    have hrecs : recsOf [r1, r2] r1.login 10 = [recEntryAt [r1, r2] r1.login 1] := by
      rw [recsOf, hranked]
      simp [recEntryAt, simPair, htarget]
    refine ⟨recEntryAt [r1, r2] r1.login 1, ?_, ?_, ?_⟩
    · rw [get_recommendations_eq 10 hmem, hrecs]
    · rfl
    · have hnum : (recEntryAt [r1, r2] r1.login 1).scoreNum = 0 := by
        simp [recEntryAt, htarget, hdot]
      rw [hnum, scoreVal_num_zero]

/-- C10: every similarity score produced by `get_recommendations` is
non-negative: for binary incidence rows the cosine lies in `[0, 1]`,
strictly tighter than the generic cosine range `[-1, 1]`. -/
theorem C10_scores_nonneg :
    ∀ (df : List RecRow) (username : String) (top_n : Nat) (recs : List RecEntry),
      get_recommendations df username top_n = some recs →
      ∀ e ∈ recs, 0 ≤ scoreVal e.scoreNum e.scoreDen ∧
        scoreVal e.scoreNum e.scoreDen ≤ 1 := by
  intro df username top_n recs h e he
  have hrecs : recs = recsOf df username top_n := by
    unfold get_recommendations at h
    split at h
    · exact (Option.some_inj.mp h).symm
    · exact absurd h (by simp)
  subst hrecs
  obtain ⟨i, hi, hne, hei⟩ := mem_recsOf he
  rw [hei]
  exact ⟨scoreVal_nonneg _ _, scoreVal_le_one (dotCount_sq_le _ _)⟩

theorem length_filter_ne_range : ∀ (n i : Nat), i < n →
    ((List.range n).filter (fun j => decide (j ≠ i))).length = n - 1 := by
  intro n
  induction n with
  | zero => intro i hi; omega
  | succ m ih =>
    intro i hi
    rw [List.range_succ, List.filter_append, List.length_append]
    by_cases hcase : i = m
    · subst hcase
      have h1 : (List.range i).filter (fun j => decide (j ≠ i)) = List.range i := by
        rw [List.filter_eq_self]
        intro a ha
        exact decide_eq_true (Nat.ne_of_lt (List.mem_range.mp ha))
      have h2 : ([i].filter (fun j => decide (j ≠ i))).length = 0 := by simp
      rw [h1, h2, List.length_range]
      omega
    · have him : i < m := by omega
      have h2 : ([m].filter (fun j => decide (j ≠ i))).length = 1 := by
        simp [Ne.symm hcase]
      rw [ih i him, h2]
      omega

theorem recsOf_sorted (df : List RecRow) (username : String) (top_n : Nat) :
    (recsOf df username top_n).Pairwise
      (fun a b => scoreVal b.scoreNum b.scoreDen ≤ scoreVal a.scoreNum a.scoreDen) := by
  have hsorted : (List.insertionSort Rdesc (keptOf df username)).Sorted Rdesc :=
    List.sorted_insertionSort Rdesc _
  have htake : (rankedOf df username top_n).Pairwise Rdesc :=
    List.Pairwise.sublist (List.take_sublist _ _) hsorted
  rw [recsOf, List.pairwise_map]
  refine htake.imp ?_
  intro a b hab
  exact (scoreLeB_iff b.2 a.2).mp hab

theorem keptOf_length {df : List RecRow} {username : String}
    (hmem : username ∈ df.map RecRow.login) :
    (keptOf df username).length = df.length - 1 := by
  have hu := targetIdx_lt_length hmem
  rw [keptOf, simScoresOf, List.filter_map, List.length_map]
  exact length_filter_ne_range _ _ hu

/-- C4: results of `get_recommendations` are truncated to at most `top_n`
entries and are sorted by non-increasing similarity score; with at least 50
eligible (non-target, non-empty-language) candidates and the default
`top_n = 10`, exactly 10 results are returned. -/
theorem C4_truncation_and_sorting :
    (∀ (df : List RecRow) (username : String) (top_n : Nat) (recs : List RecEntry),
      get_recommendations df username top_n = some recs →
      recs.length ≤ top_n ∧
        recs.Pairwise (fun a b =>
          scoreVal b.scoreNum b.scoreDen ≤ scoreVal a.scoreNum a.scoreDen)) ∧
    (∀ (df : List RecRow) (username : String),
      50 ≤ (df.filter (fun r =>
        decide (r.login ≠ username ∧ r.languagesList ≠ []))).length →
      username ∈ df.map RecRow.login →
      ∃ recs, get_recommendations df username 10 = some recs ∧ recs.length = 10 ∧
        recs.Pairwise (fun a b =>
          scoreVal b.scoreNum b.scoreDen ≤ scoreVal a.scoreNum a.scoreDen)) := by
  constructor
  · intro df username top_n recs h
    have hrecs : recs = recsOf df username top_n := by
      unfold get_recommendations at h
      split at h
      · exact (Option.some_inj.mp h).symm
      · exact absurd h (by simp)
    subst hrecs
    constructor
    · rw [recsOf, List.length_map, rankedOf]
      exact List.length_take_le _ _
    · exact recsOf_sorted df username top_n
  · intro df username h50 hmem
    refine ⟨recsOf df username 10, get_recommendations_eq 10 hmem, ?_,
      recsOf_sorted df username 10⟩
    -- eligible candidates are a sub-filter of the non-target rows
    have hsplit : (df.filter (fun r =>
        decide (r.login ≠ username ∧ r.languagesList ≠ []))).length
        ≤ (df.filter (fun r => decide (r.login ≠ username))).length := by
      have he : df.filter (fun r => decide (r.login ≠ username ∧ r.languagesList ≠ []))
          = (df.filter (fun r => decide (r.login ≠ username))).filter
            (fun r => decide (r.languagesList ≠ [])) := by
        rw [List.filter_filter]
        apply List.filter_congr
        intro r _
        simp [Bool.and_comm]
      rw [he]
      exact List.length_filter_le _ _
    have hone : 0 < (df.filter (fun r => decide (r.login = username))).length := by
      obtain ⟨r, hr, hl⟩ := List.mem_map.mp hmem
      have : r ∈ df.filter (fun r => decide (r.login = username)) :=
        List.mem_filter.mpr ⟨hr, decide_eq_true hl⟩
      exact List.length_pos_of_mem this
    have hsum : (df.filter (fun r => decide (r.login ≠ username))).length
        + (df.filter (fun r => decide (r.login = username))).length = df.length := by
      rw [← List.countP_eq_length_filter, ← List.countP_eq_length_filter]
      have := List.length_eq_countP_add_countP (fun r => decide (r.login ≠ username)) df
      rw [this]
      congr 1
      apply List.countP_congr
      intro r _
      simp
    have hlen : 50 ≤ df.length - 1 := by omega
    rw [recsOf, List.length_map, rankedOf, List.length_take,
      List.length_insertionSort, keptOf_length hmem]
    omega

/- Concrete corpora for the witnesses. -/

def rowA : RecRow :=
  { login := "alice", profileUrl := "pa", avatarUrl := "qa", languagesList := ["Python", "C"] }

def rowB : RecRow :=
  { login := "bob", profileUrl := "pb", avatarUrl := "qb", languagesList := ["Rust"] }

def rowC : RecRow :=
  { login := "carol", profileUrl := "pc", avatarUrl := "qc", languagesList := ["Python"] }

/-- The recommendation list `get_recommendations` actually produces on the
corpus `[rowA, rowB, rowC]` for target `alice`. -/
def recsACB : List RecEntry :=
  [{ login := "carol", profileUrl := "pc", commonLanguages := ["Python"],
     scoreNum := 1, scoreDen := 2, avatarUrl := "qc" },
   { login := "bob", profileUrl := "pb", commonLanguages := [],
     scoreNum := 0, scoreDen := 2, avatarUrl := "qb" }]

/-- A corpus with a target and 51 eligible candidates. -/
def bigDf : List RecRow :=
  { login := "t", profileUrl := "", avatarUrl := "", languagesList := ["Python"] } ::
    (List.range 51).map (fun i =>
      { login := toString i, profileUrl := "", avatarUrl := "", languagesList := ["Python"] })

theorem C1_witness :
    (([rowA, rowB, rowC].map RecRow.login).Nodup ∧
      "alice" ∈ [rowA, rowB, rowC].map RecRow.login ∧
      (∃ recs, get_recommendations [rowA, rowB, rowC] "alice" 10 = some recs ∧
        (∀ e ∈ recs, e.login ≠ "alice") ∧
        (∀ e ∈ recs, -1 ≤ scoreVal e.scoreNum e.scoreDen ∧
          scoreVal e.scoreNum e.scoreDen ≤ 1))) ∧
    ((∀ l ∈ rowA.languagesList, l ∉ rowB.languagesList) ∧
      ∃ e, get_recommendations [rowA, rowB] rowA.login 10 = some [e] ∧
        e.login = rowB.login ∧ scoreVal e.scoreNum e.scoreDen = 0) :=
  ⟨⟨by decide, by decide,
      C1_no_self_and_bounded_scores.1 [rowA, rowB, rowC] "alice" 10 (by decide) (by decide)⟩,
    ⟨by decide, C1_no_self_and_bounded_scores.2 rowA rowB (by decide)⟩⟩

theorem C10_witness :
    get_recommendations [rowA, rowB, rowC] "alice" 10 = some recsACB ∧
    ∀ e ∈ recsACB, 0 ≤ scoreVal e.scoreNum e.scoreDen ∧
      scoreVal e.scoreNum e.scoreDen ≤ 1 :=
  ⟨by decide, C10_scores_nonneg [rowA, rowB, rowC] "alice" 10 recsACB (by decide)⟩

theorem C4_witness :
    (get_recommendations [rowA, rowB, rowC] "alice" 10 = some recsACB ∧
      recsACB.length ≤ 10 ∧
      recsACB.Pairwise (fun a b =>
        scoreVal b.scoreNum b.scoreDen ≤ scoreVal a.scoreNum a.scoreDen)) ∧
    (50 ≤ (bigDf.filter (fun r =>
        decide (r.login ≠ "t" ∧ r.languagesList ≠ []))).length ∧
      "t" ∈ bigDf.map RecRow.login ∧
      ∃ recs, get_recommendations bigDf "t" 10 = some recs ∧ recs.length = 10 ∧
        recs.Pairwise (fun a b =>
          scoreVal b.scoreNum b.scoreDen ≤ scoreVal a.scoreNum a.scoreDen)) :=
  ⟨⟨by decide, C4_truncation_and_sorting.1 [rowA, rowB, rowC] "alice" 10 recsACB (by decide)⟩,
    ⟨by decide, by decide, C4_truncation_and_sorting.2 bigDf "t" (by decide) (by decide)⟩⟩

/- ===================================================================
   Part 2 — HTTP model and `get_json` (`Recommendation_dashboard.py`)
   =================================================================== -/

/-- An HTTP response as seen by the code: status code and the typed view
of the JSON body. -/
structure Resp (α : Type) where
  status : Nat
  body : α
deriving DecidableEq

/-- A response oracle for one endpoint: the response to the n-th request
the code issues to that endpoint. -/
def JsonSrc (α : Type) : Type := Nat → Resp α

/-- `requests.Response.raise_for_status()` raises exactly for 4xx/5xx. -/
def isHttpError (status : Nat) : Bool := decide (400 ≤ status ∧ status < 600)

/-- The observable outcome of a `get_json` call: the JSON body or the
raised status, the total seconds spent in `time.sleep`, and the number of
requests issued. -/
structure GetJsonOut (α : Type) where
  result : Except Nat α
  sleptSeconds : Nat
  requests : Nat

/-- `get_json(url)` from `Recommendation_dashboard.py`: issue the request;
on a 403 (rate-limit) response sleep 60 seconds and retry exactly once;
then `raise_for_status` and return the JSON body. -/
def get_json {α : Type} (src : JsonSrc α) : GetJsonOut α :=
  let r0 := src 0
  if r0.status = 403 then
    let r1 := src 1
    { result := if isHttpError r1.status then Except.error r1.status else Except.ok r1.body
      sleptSeconds := 60
      requests := 2 }
  else
    { result := if isHttpError r0.status then Except.error r0.status else Except.ok r0.body
      sleptSeconds := 0
      requests := 1 }

/- ===================================================================
   Part 3 — `dashboard.py`: `get_commit_count` and `fetch_user_data`
   =================================================================== -/

/-- The fields of a repository object read by the two pipelines. -/
structure RepoJson where
  name : Option String
  language : Option String
  stargazersCount : Option Nat
  size : Option Nat
  fork : Bool
  htmlUrl : Option String
deriving DecidableEq

/-- Python `x or d` for an optional string (`None` and `""` are falsy). -/
def orStr (o : Option String) (d : String) : String :=
  match o with
  | none => d
  | some s => if s = "" then d else s

/-- Python `x or 0` for an optional count (`None` and `0` both give `0`). -/
def orNat (o : Option Nat) : Nat := o.getD 0

/-- `repo.get("language") or "Unknown"`. -/
def repoLang (r : RepoJson) : String := orStr r.language "Unknown"

/-- `repo.get("name") or "Unknown"`. -/
def repoName (r : RepoJson) : String := orStr r.name "Unknown"

/-- The fields of the user profile object read by `dashboard.py`. -/
structure UserJson where
  name : Option String
  avatarUrl : Option String
  htmlUrl : Option String
  bio : Option String
  createdAt : Option String
  followers : Option Nat
  following : Option Nat
  publicRepos : Option Nat
deriving DecidableEq

/-- The response to the `per_page=1` commit request of `get_commit_count`:
status, the `Link` response header if any, and the length of the JSON body
list. -/
structure CommitCountResp where
  status : Nat
  link : Option String
  bodyLen : Nat
deriving DecidableEq

/-- The response to the `per_page=100` commit-list request: status and the
value at `commit.author.date` for each returned commit. -/
structure CommitsResp where
  status : Nat
  dates : List (Option String)
deriving DecidableEq

/-- The network as `dashboard.py` sees it: the profile endpoint (indexed
by attempt — the code only ever issues attempt 0), the repository and
starred list endpoints, and, per repository name, the two commit
requests. -/
structure DashNet where
  user : JsonSrc UserJson
  repos : Resp (List RepoJson)
  starred : Resp (List RepoJson)
  commitCount : String → CommitCountResp
  commits100 : String → CommitsResp

/-- Is `pre` a prefix of `l`? -/
def isPrefixCh : List Char → List Char → Bool
  | [], _ => true
  | _ :: _, [] => false
  | a :: as, b :: bs => decide (a = b) && isPrefixCh as bs

/-- Python `s.split(c)` for a single-character separator. -/
def splitOnChar (c : Char) : List Char → List (List Char)
  | [] => [[]]
  | a :: rest =>
    match splitOnChar c rest with
    | [] => [[]]
    | g :: gs => if a = c then [] :: g :: gs else (a :: g) :: gs

/-- Python `needle in hay` (substring containment). -/
def hasSubstrCh (needle : List Char) : List Char → Bool
  | [] => needle.isEmpty
  | c :: rest => isPrefixCh needle (c :: rest) || hasSubstrCh needle rest

/-- The suffix of `l` after the last occurrence of `needle`
(`l.split(needle)[-1]` — identical for the non-self-overlapping needles
used here); `none` when `needle` does not occur. -/
def afterLastCh (needle : List Char) : List Char → Option (List Char)
  | [] => if needle.isEmpty then some [] else none
  | c :: rest =>
    match afterLastCh needle rest with
    | some suf => some suf
    | none =>
      if isPrefixCh needle (c :: rest) then some (List.drop needle.length (c :: rest))
      else none

/-- Python `s.strip('<> ')`. -/
def stripAngles (cs : List Char) : List Char :=
  let p := fun c : Char => decide (c = '<' ∨ c = '>' ∨ c = ' ')
  ((cs.dropWhile p).reverse.dropWhile p).reverse

def digitVal (c : Char) : Option Nat := if c.isDigit then some (c.toNat - 48) else none

def parseNatDigits (cs : List Char) : Option Nat :=
  if cs.isEmpty then none
  else cs.foldl (fun acc c =>
    match acc, digitVal c with
    | some a, some d => some (a * 10 + d)
    | _, _ => none) (some 0)

/-- Python `int(s)` restricted to the page-number shapes: optional
surrounding whitespace, optional sign, decimal digits. -/
def pyIntCh (cs : List Char) : Option Int :=
  let ws := fun c : Char => c.isWhitespace
  let t := ((cs.dropWhile ws).reverse.dropWhile ws).reverse
  match t with
  | '-' :: rest => (parseNatDigits rest).map (fun n => -(n : Int))
  | '+' :: rest => (parseNatDigits rest).map (fun n => (n : Int))
  | rest => (parseNatDigits rest).map (fun n => (n : Int))

/-- `'rel="last"' in link`'s needle. -/
def lastRelNeedle : List Char := "rel=\"last\"".toList

/-- `'page='`, the needle of `last_url.split('page=')`. -/
def pageNeedle : List Char := "page=".toList

/-- `get_commit_count(username, repo_name, headers)` from `dashboard.py`:
`0` on a non-200 response; else, when a `Link` header exists and contains a
`rel="last"` part, the page number parsed out of the first such part (`0`
if parsing fails); otherwise the length of the returned commit list. -/
def get_commit_count (resp : CommitCountResp) : Int :=
  if resp.status ≠ 200 then 0
  else
    match resp.link with
    | none => (resp.bodyLen : Int)
    | some links =>
      match (splitOnChar ',' links.toList).filter (hasSubstrCh lastRelNeedle) with
      | [] => (resp.bodyLen : Int)
      | part :: _ =>
        let lastUrl := stripAngles ((splitOnChar ';' part).headD [])
        match pyIntCh ((afterLastCh pageNeedle lastUrl).getD lastUrl) with
        | some n => n
        | none => 0

/-- A Python dict with string keys, as an insertion-ordered association
list (keys unique by construction of `dset`). -/
def dget {β : Type} (d : List (String × β)) (k : String) : Option β :=
  (d.find? (fun p => decide (p.1 = k))).map Prod.snd

/-- `d.get(k, v)`. -/
def dgetD {β : Type} (d : List (String × β)) (k : String) (v : β) : β :=
  (dget d k).getD v

/-- `d[k] = v` on a Python dict: overwrite the first occurrence of the key
in place (keys are unique in every dict the code builds), otherwise
append. -/
def dset {β : Type} : List (String × β) → String → β → List (String × β)
  | [], k, v => [(k, v)]
  | p :: rest, k, v => if p.1 = k then (k, v) :: rest else p :: dset rest k v

/-- The running state of the `for repo in repos` loop of
`fetch_user_data`. -/
structure LoopSt where
  languages : List (String × Nat)
  commitsPerRepo : List (String × Int)
  starsPerRepo : List (String × Nat)
  starsPerLanguage : List (String × Nat)
  commitDates : List String
deriving DecidableEq

def initLoopSt : LoopSt :=
  { languages := [], commitsPerRepo := [], starsPerRepo := [],
    starsPerLanguage := [], commitDates := [] }

/-- One iteration of the `for repo in repos` loop of `fetch_user_data`. -/
def loopStep (net : DashNet) (st : LoopSt) (r : RepoJson) : LoopSt :=
  let lang := repoLang r
  let nm := repoName r
  let stars := orNat r.stargazersCount
  let size := orNat r.size
  let cc := get_commit_count (net.commitCount nm)
  let cresp := net.commits100 nm
  { languages := dset st.languages lang (dgetD st.languages lang 0 + size)
    commitsPerRepo := dset st.commitsPerRepo nm cc
    starsPerRepo := dset st.starsPerRepo nm stars
    starsPerLanguage := dset st.starsPerLanguage lang (dgetD st.starsPerLanguage lang 0 + stars)
    commitDates := st.commitDates ++
      (if cresp.status = 200 then
        (cresp.dates.filterMap id).filter (fun s => decide (s ≠ "")) else []) }

/-- The `commits_per_language` aggregation of `fetch_user_data`: for each
known language, the sum of `commits_per_repo.get(repo.get("name") or "", 0)`
over the repositories with that language. -/
def commitsPerLanguageOf (repos : List RepoJson) (cpr : List (String × Int))
    (languages : List (String × Nat)) : List (String × Int) :=
  languages.foldl (fun acc p =>
    dset acc p.1 (((repos.filter (fun r => decide (repoLang r = p.1))).map
      (fun r => dgetD cpr (orStr r.name "") 0)).sum)) []

/-- The flat record returned by `fetch_user_data`. -/
structure DashRecord where
  login : String
  name : String
  avatarUrl : Option String
  profileUrl : Option String
  bio : String
  createdAt : Option String
  followersCount : Nat
  followingCount : Nat
  publicRepos : Nat
  languages : List (String × Nat)
  commitsPerRepo : List (String × Int)
  starsPerRepo : List (String × Nat)
  starsPerLanguage : List (String × Nat)
  commitsPerLanguage : List (String × Int)
  starredRepositories : List (Option String)
  commitDates : List String
  platforms : List String
  webFrameworks : List (String × Nat)
  totalCommits : Int
deriving DecidableEq

/-- The repository list `fetch_user_data` works with:
`repos_resp.json() if repos_resp.status_code == 200 else []`. -/
def dashRepos (net : DashNet) : List RepoJson :=
  if net.repos.status = 200 then net.repos.body else []

/-- The record `fetch_user_data` returns when the profile request
succeeded. -/
def dashRecordOf (net : DashNet) (username : String) : DashRecord :=
  let uj := (net.user 0).body
  let repos := dashRepos net
  let starred := if net.starred.status = 200 then net.starred.body else []
  let st := repos.foldl (loopStep net) initLoopSt
  let cpl := commitsPerLanguageOf repos st.commitsPerRepo st.languages
  { login := username
    name := orStr uj.name username
    avatarUrl := uj.avatarUrl
    profileUrl := uj.htmlUrl
    bio := orStr uj.bio ""
    createdAt := uj.createdAt
    followersCount := orNat uj.followers
    followingCount := orNat uj.following
    publicRepos := orNat uj.publicRepos
    languages := st.languages
    commitsPerRepo := st.commitsPerRepo
    starsPerRepo := st.starsPerRepo
    starsPerLanguage := st.starsPerLanguage
    commitsPerLanguage := cpl
    starredRepositories := starred.map (fun r => r.htmlUrl)
    commitDates := st.commitDates
    platforms := ["Linux", "Windows", "macOS"]
    webFrameworks := [("Django", 3), ("Flask", 2), ("React", 5)]
    totalCommits := (st.commitsPerRepo.map Prod.snd).sum }

/-- `fetch_user_data(username)` from `dashboard.py`: one request per
endpoint, no sleeping and no retrying anywhere; a non-200 profile response
yields `None`; non-200 repository/starred responses degrade to `[]`. -/
def fetch_user_data (net : DashNet) (username : String) : Option DashRecord :=
  if (net.user 0).status ≠ 200 then none else some (dashRecordOf net username)

/- ===================================================================
   Part 4 — Document store and pipeline 1 (`fetch_and_store_user`)
   =================================================================== -/

/-- A stored document: an association list of field names to values. -/
abbrev MDoc (α : Type) : Type := List (String × α)

/-- The `user_data` collection: a list of documents. -/
abbrev MStore (α : Type) : Type := List (MDoc α)

/-- Does a document match an equality filter? -/
def matchesFilter {α : Type} [DecidableEq α] (flt d : MDoc α) : Bool :=
  flt.all (fun p => decide (dget d p.1 = some p.2))

/-- Apply a `$set` update to one document: every update field is written
(in place for existing keys, appended otherwise); fields of the document
absent from the update are kept. -/
def applySet {α : Type} (d upd : MDoc α) : MDoc α :=
  upd.foldl (fun acc p => dset acc p.1 p.2) d

/-- `collection.update_one(filter, {"$set": update}, upsert=True)`: apply
`$set` to the first matching document; when none matches, insert a new
document built from the filter's equality fields and the update. -/
def update_one {α : Type} [DecidableEq α] : MStore α → MDoc α → MDoc α → MStore α
  | [], flt, upd => [applySet (applySet [] flt) upd]
  | d :: rest, flt, upd =>
    if matchesFilter flt d then applySet d upd :: rest
    else d :: update_one rest flt upd

/-- `collection.insert_one(doc)`. -/
def insert_one {α : Type} (s : MStore α) (d : MDoc α) : MStore α := s ++ [d]

/-- `collection.find_one(filter)`: the first matching document. -/
def find_one {α : Type} [DecidableEq α] (s : MStore α) (flt : MDoc α) : Option (MDoc α) :=
  s.find? (matchesFilter flt)

/-- The store interaction of `dashboard.py` around one username query:
look the login up; on a hit the store is untouched and the cached document
returned; on a miss `fetch_user_data` is called and the *caller* inserts
the fetched record (encoded into a document by `enc`) exactly once, or the
store is left untouched when the fetch fails. -/
def dashboardStep {α : Type} [DecidableEq α] (s : MStore α) (enc : DashRecord → MDoc α)
    (key : String → α) (net : DashNet) (username : String) :
    MStore α × Option (MDoc α) :=
  match find_one s [("Login", key username)] with
  | some d => (s, some d)
  | none =>
    match fetch_user_data net username with
    | some u => (insert_one s (enc u), some (enc u))
    | none => (s, none)

/-- `get_list(url, key)` from `Recommendation_dashboard.py`: the `key`
field of every item; any failure (an HTTP error raised by `get_json` or a
missing key in some item) yields `[]`. -/
def get_list (src : JsonSrc (List (Option String))) : List String :=
  match (get_json src).result with
  | Except.error _ => []
  | Except.ok items =>
    match items.mapM id with
    | some ls => ls
    | none => []

/-- `get_starred_or_subs(url)`: the same shape over the `html_url` key. -/
def get_starred_or_subs (src : JsonSrc (List (Option String))) : List String :=
  match (get_json src).result with
  | Except.error _ => []
  | Except.ok items =>
    match items.mapM id with
    | some ls => ls
    | none => []

/-- A repository object as read by the pipeline-1 helpers. -/
structure Repo1 where
  fork : Bool
deriving DecidableEq

/-- The inner loop of `get_languages`: accumulate every repository's
language byte counts; `none` when some per-repository request raises. -/
def accLangs (langsSrc : Nat → JsonSrc (List (String × Nat))) :
    List Nat → List (String × Nat) → Option (List (String × Nat))
  | [], acc => some acc
  | i :: rest, acc =>
    match (get_json (langsSrc i)).result with
    | Except.error _ => none
    | Except.ok langs =>
      accLangs langsSrc rest
        (langs.foldl (fun d p => dset d p.1 (dgetD d p.1 0 + p.2)) acc)

/-- `get_languages(username)`: fetch the repository list, then every
repository's language breakdown, summing byte counts per language across
repositories; any failure yields `{}`. -/
def get_languages (reposSrc : JsonSrc (List Repo1))
    (langsSrc : Nat → JsonSrc (List (String × Nat))) : List (String × Nat) :=
  match (get_json reposSrc).result with
  | Except.error _ => []
  | Except.ok repos =>
    match accLangs langsSrc (List.range repos.length) [] with
    | some d => d
    | none => []

/-- The `per_page=1` commit probe of `get_total_commits`: status, whether
the JSON body is a list, and its length.  The response's `Link` header is
part of the model so that it is provable that `get_total_commits` never
consults it. -/
structure Probe where
  status : Nat
  isList : Bool
  bodyLen : Nat
  link : Option String
deriving DecidableEq

/-- The `for repo in repos` loop of `get_total_commits`: skip forks, and
for each remaining repository add the body length of its `per_page=1`
commit response when that response is a 200 list. -/
def totalCommitsLoop (probe : Nat → Probe) : List Repo1 → Nat → Nat → Nat
  | [], _, t => t
  | r :: rest, i, t =>
    if r.fork then totalCommitsLoop probe rest (i + 1) t
    else
      let p := probe i
      totalCommitsLoop probe rest (i + 1)
        (if p.status = 200 ∧ p.isList then t + p.bodyLen else t)

/-- `get_total_commits(username)` from `Recommendation_dashboard.py`: the
repository list is fetched with `get_json` (`0` on failure); the `Link`
header is never consulted. -/
def get_total_commits (reposSrc : JsonSrc (List Repo1)) (probe : Nat → Probe) : Nat :=
  match (get_json reposSrc).result with
  | Except.error _ => 0
  | Except.ok repos => totalCommitsLoop probe repos 0 0

/-- The profile fields read by `fetch_and_store_user`. -/
structure UserJson1 where
  login : Option String
  name : Option String
  bio : Option String
  publicRepos : Option Nat
  followers : Option Nat
  following : Option Nat
  createdAt : Option String
  updatedAt : Option String
  avatarUrl : Option String
  htmlUrl : Option String
deriving DecidableEq

/-- The flat record assembled and stored by `fetch_and_store_user`. -/
structure Rec1Record where
  login : Option String
  name : Option String
  bio : Option String
  publicRepos : Option Nat
  followersCount : Option Nat
  followingCount : Option Nat
  createdAt : Option String
  updatedAt : Option String
  avatarUrl : Option String
  profileUrl : Option String
  followersList : List String
  followingList : List String
  starredRepositories : List String
  subscriptions : List String
  organizations : List String
  languages : List (String × Nat)
  totalCommits : Nat
deriving DecidableEq

/-- The network as `fetch_and_store_user` sees it: one oracle per request
site (the repository list is fetched twice, once inside `get_languages`
and once inside `get_total_commits` — distinct requests). -/
structure Rec1Net where
  user : JsonSrc UserJson1
  followers : JsonSrc (List (Option String))
  following : JsonSrc (List (Option String))
  starred : JsonSrc (List (Option String))
  subs : JsonSrc (List (Option String))
  orgs : JsonSrc (List (Option String))
  reposL : JsonSrc (List Repo1)
  langs : Nat → JsonSrc (List (String × Nat))
  reposC : JsonSrc (List Repo1)
  commitsProbe : Nat → Probe

/-- The `data` dict `fetch_and_store_user` builds after a successful
profile fetch. -/
def rec1Data (net : Rec1Net) (u : UserJson1) : Rec1Record :=
  { login := u.login
    name := u.name
    bio := u.bio
    publicRepos := u.publicRepos
    followersCount := u.followers
    followingCount := u.following
    createdAt := u.createdAt
    updatedAt := u.updatedAt
    avatarUrl := u.avatarUrl
    profileUrl := u.htmlUrl
    followersList := get_list net.followers
    followingList := get_list net.following
    starredRepositories := get_starred_or_subs net.starred
    subscriptions := get_starred_or_subs net.subs
    organizations := get_list net.orgs
    languages := get_languages net.reposL net.langs
    totalCommits := get_total_commits net.reposC net.commitsProbe }

/-- `fetch_and_store_user(username)` from `Recommendation_dashboard.py`:
fetch the profile (failure → error message, store untouched, `None`),
assemble the flat record, upsert it into the collection *itself*
(`update_one` on `{"Login": username}` with `$set`, `upsert=True`) and
return it. -/
def fetch_and_store_user {α : Type} [DecidableEq α] (s : MStore α)
    (enc : Rec1Record → MDoc α) (key : String → α) (net : Rec1Net)
    (username : String) : MStore α × Option Rec1Record :=
  match (get_json net.user).result with
  | Except.error _ => (s, none)
  | Except.ok u =>
    let data := rec1Data net u
    (update_one s [("Login", key username)] (enc data), some data)

/- ===================================================================
   Dict and fold lemmas
   =================================================================== -/

theorem find?_key_isSome {β : Type} (d : List (String × β)) (k : String) :
    (d.find? (fun p => decide (p.1 = k))).isSome = true ↔ k ∈ d.map Prod.fst := by
  rw [List.find?_isSome]
  simp [List.mem_map, decide_eq_true_eq]

theorem dset_fresh {β : Type} (k : String) (v : β) :
    ∀ d : List (String × β), k ∉ d.map Prod.fst → dset d k v = d ++ [(k, v)] := by
  intro d
  induction d with
  | nil => intro _; rfl
  | cons p rest ih =>
    intro h
    have hne : ¬p.1 = k := by
      intro hc
      exact h (by simp [hc])
    have hrest : k ∉ rest.map Prod.fst := by
      intro hc
      exact h (by simp [hc])
    simp only [dset, if_neg hne, ih hrest]
    rfl

theorem dget_dset_self {β : Type} (k : String) (v : β) :
    ∀ d : List (String × β), dget (dset d k v) k = some v := by
  intro d
  induction d with
  | nil => simp [dset, dget]
  | cons p rest ih =>
    by_cases hp : p.1 = k
    · simp [dset, hp, dget]
    · simp only [dset, if_neg hp]
      unfold dget at ih ⊢
      rw [List.find?_cons]
      have hfalse : decide (p.1 = k) = false := by simp [hp]
      rw [hfalse]
      exact ih

theorem dget_dset_ne {β : Type} (k k2 : String) (v : β) (hne : k2 ≠ k) :
    ∀ d : List (String × β), dget (dset d k v) k2 = dget d k2 := by
  intro d
  induction d with
  | nil => simp [dset, dget, Ne.symm hne]
  | cons p rest ih =>
    by_cases hp : p.1 = k
    · unfold dget
      simp only [dset, if_pos hp]
      rw [List.find?_cons, List.find?_cons]
      have h1 : decide ((k, v).1 = k2) = false := by simp [Ne.symm hne]
      have h2 : decide (p.1 = k2) = false := by
        simp [hp, Ne.symm hne]
      rw [h1, h2]
    · unfold dget at ih ⊢
      simp only [dset, if_neg hp]
      rw [List.find?_cons, List.find?_cons]
      cases hd : decide (p.1 = k2) with
      | true => rfl
      | false => exact ih

theorem keys_dset {β : Type} (d : List (String × β)) (k : String) (v : β) :
    (dset d k v).map Prod.fst
      = if k ∈ d.map Prod.fst then d.map Prod.fst else d.map Prod.fst ++ [k] := by
  induction d with
  | nil => simp [dset]
  | cons p rest ih =>
    by_cases hp : p.1 = k
    · simp [dset, hp]
    · simp only [dset, if_neg hp, List.map_cons, ih]
      by_cases hk : k ∈ rest.map Prod.fst
      · simp [hk, hp]
      · have hkp : ¬k = p.1 := fun hc => hp hc.symm
        simp [hk, hkp]

theorem keys_dset_nodup {β : Type} {d : List (String × β)} (k : String) (v : β)
    (h : (d.map Prod.fst).Nodup) : ((dset d k v).map Prod.fst).Nodup := by
  rw [keys_dset]
  split
  · exact h
  · rename_i hmem
    exact ((List.perm_append_singleton k _).nodup_iff).mpr (List.nodup_cons.mpr ⟨hmem, h⟩)

theorem mem_keys_dset_self {β : Type} (d : List (String × β)) (k : String) (v : β) :
    k ∈ (dset d k v).map Prod.fst := by
  rw [keys_dset]
  split
  · assumption
  · simp

theorem mem_keys_dset_of_mem {β : Type} {d : List (String × β)} (k : String) (v : β)
    {k2 : String} (h : k2 ∈ d.map Prod.fst) : k2 ∈ (dset d k v).map Prod.fst := by
  rw [keys_dset]
  split
  · exact h
  · exact List.mem_append_left _ h

/-- A fold of fresh-key insertions into a dict is an append of the
corresponding entries. -/
theorem foldl_dset_fresh {β γ : Type} (key : γ → String) (val : γ → β) :
    ∀ (l : List γ) (d : List (String × β)),
      (∀ x ∈ l, key x ∉ d.map Prod.fst) → (l.map key).Nodup →
      l.foldl (fun acc x => dset acc (key x) (val x)) d
        = d ++ l.map (fun x => (key x, val x)) := by
  intro l
  induction l with
  | nil => intro d _ _; simp
  | cons x rest ih =>
    intro d hfresh hnd
    rw [List.foldl_cons]
    have hx : key x ∉ d.map Prod.fst := hfresh x (List.mem_cons_self x rest)
    have hset : dset d (key x) (val x) = d ++ [(key x, val x)] :=
      dset_fresh (key x) (val x) d hx
    rw [hset]
    have hnd2 : (rest.map key).Nodup := (List.nodup_cons.mp (by simpa using hnd)).2
    have hxn : key x ∉ rest.map key := (List.nodup_cons.mp (by simpa using hnd)).1
    have hfresh2 : ∀ y ∈ rest, key y ∉ (d ++ [(key x, val x)]).map Prod.fst := by
      intro y hy
      rw [List.map_append, List.mem_append]
      rintro (hmem | hmem)
      · exact hfresh y (List.mem_cons_of_mem x hy) hmem
      · simp only [List.map_cons, List.map_nil, List.mem_singleton] at hmem
        exact hxn (hmem ▸ List.mem_map_of_mem key hy)
    rw [ih (d ++ [(key x, val x)]) hfresh2 hnd2, List.append_assoc]
    rfl

/-- Look-up in a dict of map-form with pairwise distinct keys. -/
theorem dget_map_of_nodup {β γ : Type} (key : γ → String) (val : γ → β) :
    ∀ (l : List γ), (l.map key).Nodup → ∀ {x : γ}, x ∈ l →
      dget (l.map (fun y => (key y, val y))) (key x) = some (val x) := by
  intro l
  induction l with
  | nil => intro _ x hx; cases hx
  | cons y rest ih =>
    intro hnd x hx
    have hnd2 : (rest.map key).Nodup := (List.nodup_cons.mp (by simpa using hnd)).2
    have hyn : key y ∉ rest.map key := (List.nodup_cons.mp (by simpa using hnd)).1
    rcases List.mem_cons.mp hx with he | hrest
    · subst he
      simp [dget, List.find?_cons]
    · have hne : key x ≠ key y := by
        intro hc
        exact hyn (hc ▸ List.mem_map_of_mem key hrest)
      rw [List.map_cons, dget, List.find?_cons]
      have hfalse : decide ((key y, val y).1 = key x) = false := by
        simp [Ne.symm hne]
      rw [hfalse]
      exact ih hnd2 hrest

/-- Summing a per-key fiber decomposition over a duplicate-free key cover
recovers the plain sum. -/
theorem sum_single_key {M : Type} [AddCommMonoid M] (a : String) (c : M) :
    ∀ (keys : List String), keys.Nodup → a ∈ keys →
      (keys.map (fun k => if a = k then c else 0)).sum = c := by
  intro keys
  induction keys with
  | nil => intro _ h; cases h
  | cons k ks ih =>
    intro hnd hmem
    have hnd2 : ks.Nodup := (List.nodup_cons.mp hnd).2
    have hkn : k ∉ ks := (List.nodup_cons.mp hnd).1
    rcases List.mem_cons.mp hmem with he | hrest
    · subst he
      have hz : (ks.map (fun k2 => if a = k2 then c else 0)).sum = 0 := by
        apply List.sum_eq_zero
        intro x hx
        obtain ⟨k2, hk2, he2⟩ := List.mem_map.mp hx
        rw [← he2, if_neg]
        intro hc
        exact hkn (hc ▸ hk2)
      simp [hz]
    · have hne : a ≠ k := by
        intro hc
        exact (List.nodup_cons.mp hnd).1 (hc ▸ hrest)
      simp only [List.map_cons, List.sum_cons, if_neg hne, zero_add]
      exact ih hnd2 hrest

theorem sum_keys_fiber {M γ : Type} [AddCommMonoid M] (lang : γ → String) (f : γ → M)
    (keys : List String) (hnd : keys.Nodup) :
    ∀ (l : List γ), (∀ x ∈ l, lang x ∈ keys) →
      (keys.map (fun k => ((l.filter (fun x => decide (lang x = k))).map f).sum)).sum
        = (l.map f).sum := by
  intro l
  induction l with
  | nil => intro _; simp
  | cons x rest ih =>
    intro hcov
    have hx : lang x ∈ keys := hcov x (List.mem_cons_self x rest)
    have hcov2 : ∀ y ∈ rest, lang y ∈ keys := fun y hy => hcov y (List.mem_cons_of_mem x hy)
    have hpt : keys.map (fun k => (((x :: rest).filter
          (fun y => decide (lang y = k))).map f).sum)
        = keys.map (fun k => (if lang x = k then f x else 0)
          + ((rest.filter (fun y => decide (lang y = k))).map f).sum) := by
      apply List.map_congr_left
      intro k _
      rw [List.filter_cons]
      by_cases hk : lang x = k
      · simp [hk]
      · simp [hk]
    rw [hpt, List.sum_map_add, sum_single_key (lang x) (f x) keys hnd hx, ih hcov2]
    simp

/- Componentwise views of the `fetch_user_data` repository loop. -/

theorem foldl_loopStep_cpr (net : DashNet) :
    ∀ (repos : List RepoJson) (st : LoopSt),
      (repos.foldl (loopStep net) st).commitsPerRepo
        = repos.foldl (fun acc r => dset acc (repoName r)
            (get_commit_count (net.commitCount (repoName r)))) st.commitsPerRepo := by
  intro repos
  induction repos with
  | nil => intro st; rfl
  | cons r rest ih =>
    intro st
    rw [List.foldl_cons, List.foldl_cons, ih]
    rfl

theorem foldl_loopStep_langs (net : DashNet) :
    ∀ (repos : List RepoJson) (st : LoopSt),
      (repos.foldl (loopStep net) st).languages
        = repos.foldl (fun acc r => dset acc (repoLang r)
            (dgetD acc (repoLang r) 0 + orNat r.size)) st.languages := by
  intro repos
  induction repos with
  | nil => intro st; rfl
  | cons r rest ih =>
    intro st
    rw [List.foldl_cons, List.foldl_cons, ih]
    rfl

theorem foldl_dset_keys_nodup {β γ : Type} (key : γ → String)
    (val : List (String × β) → γ → β) :
    ∀ (l : List γ) (d : List (String × β)), (d.map Prod.fst).Nodup →
      ((l.foldl (fun acc x => dset acc (key x) (val acc x)) d).map Prod.fst).Nodup := by
  intro l
  induction l with
  | nil => intro d h; exact h
  | cons x rest ih =>
    intro d h
    rw [List.foldl_cons]
    exact ih _ (keys_dset_nodup _ _ h)

theorem mem_keys_foldl_dset_of_mem {β γ : Type} (key : γ → String)
    (val : List (String × β) → γ → β) :
    ∀ (l : List γ) (d : List (String × β)) {k2 : String}, k2 ∈ d.map Prod.fst →
      k2 ∈ (l.foldl (fun acc x => dset acc (key x) (val acc x)) d).map Prod.fst := by
  intro l
  induction l with
  | nil => intro d _ h; exact h
  | cons x rest ih =>
    intro d k2 h
    rw [List.foldl_cons]
    exact ih _ (mem_keys_dset_of_mem _ _ h)

theorem mem_keys_foldl_dset {β γ : Type} (key : γ → String)
    (val : List (String × β) → γ → β) :
    ∀ (l : List γ) (d : List (String × β)) {x : γ}, x ∈ l →
      key x ∈ (l.foldl (fun acc x => dset acc (key x) (val acc x)) d).map Prod.fst := by
  intro l
  induction l with
  | nil => intro d x hx; cases hx
  | cons y rest ih =>
    intro d x hx
    rw [List.foldl_cons]
    rcases List.mem_cons.mp hx with he | hrest
    · subst he
      exact mem_keys_foldl_dset_of_mem key val rest _ (mem_keys_dset_self _ _ _)
    · exact ih _ hrest

theorem dget_mem_keys {β : Type} {d : List (String × β)} {k : String} {v : β}
    (h : dget d k = some v) : k ∈ d.map Prod.fst := by
  rw [← find?_key_isSome]
  unfold dget at h
  cases hf : d.find? (fun p => decide (p.1 = k)) with
  | none => rw [hf] at h; cases h
  | some p => simp [hf]

/-- A well-formed repository name makes the two defaulting expressions of
`dashboard.py` (`or "Unknown"` on line 65, `or ""` on line 86) agree. -/
theorem validName_orStr {r : RepoJson} (h : r.name ≠ none ∧ r.name ≠ some "") :
    orStr r.name "" = repoName r := by
  rcases hn : r.name with _ | s
  · exact absurd hn h.1
  · have hs : s ≠ "" := by
      intro hc
      exact h.2 (by rw [hn, hc])
    simp [orStr, repoName, hn, hs]

theorem dashRecordOf_cpr (net : DashNet) (username : String) :
    (dashRecordOf net username).commitsPerRepo
      = (dashRepos net).foldl (fun acc r => dset acc (repoName r)
          (get_commit_count (net.commitCount (repoName r)))) [] := by
  have h0 : (dashRecordOf net username).commitsPerRepo
      = ((dashRepos net).foldl (loopStep net) initLoopSt).commitsPerRepo := rfl
  rw [h0, foldl_loopStep_cpr]
  rfl

theorem dashRecordOf_langs (net : DashNet) (username : String) :
    (dashRecordOf net username).languages
      = (dashRepos net).foldl (fun acc r => dset acc (repoLang r)
          (dgetD acc (repoLang r) 0 + orNat r.size)) [] := by
  have h0 : (dashRecordOf net username).languages
      = ((dashRepos net).foldl (loopStep net) initLoopSt).languages := rfl
  rw [h0, foldl_loopStep_langs]
  rfl

theorem dashRecordOf_cpl (net : DashNet) (username : String) :
    (dashRecordOf net username).commitsPerLanguage
      = commitsPerLanguageOf (dashRepos net)
          (dashRecordOf net username).commitsPerRepo
          (dashRecordOf net username).languages := rfl

theorem dashRecordOf_total (net : DashNet) (username : String) :
    (dashRecordOf net username).totalCommits
      = ((dashRecordOf net username).commitsPerRepo.map Prod.snd).sum := rfl

/-- C6: in `fetch_user_data`, for well-formed repository data (names
present, non-empty, and pairwise distinct — GitHub invariants), each
per-language commit count is the sum of the per-repository commit counts
over exactly the fetched repositories with that language, and the sum over
all languages equals the sum over all repositories (which is also the
stored `Total Commits`). -/
theorem C6_language_commit_partition :
    ∀ (net : DashNet) (username : String),
      (net.user 0).status = 200 →
      (∀ r ∈ dashRepos net, r.name ≠ none ∧ r.name ≠ some "") →
      ((dashRepos net).map repoName).Nodup →
      ∃ rec, fetch_user_data net username = some rec ∧
        (∀ k v, dget rec.languages k = some v →
          dget rec.commitsPerLanguage k
            = some ((((dashRepos net).filter (fun r => decide (repoLang r = k))).map
                (fun r => dgetD rec.commitsPerRepo (repoName r) 0)).sum)) ∧
        (rec.commitsPerLanguage.map Prod.snd).sum
          = (rec.commitsPerRepo.map Prod.snd).sum ∧
        rec.totalCommits = (rec.commitsPerRepo.map Prod.snd).sum := by
  intro net username hu hnames hnd
  refine ⟨dashRecordOf net username, ?_, ?_, ?_, dashRecordOf_total net username⟩
  · unfold fetch_user_data
    rw [if_neg (by simp [hu])]
  all_goals
    have hcpr : (dashRecordOf net username).commitsPerRepo
        = (dashRepos net).map (fun r =>
            (repoName r, get_commit_count (net.commitCount (repoName r)))) := by
      rw [dashRecordOf_cpr,
        foldl_dset_fresh repoName
          (fun r => get_commit_count (net.commitCount (repoName r)))
          (dashRepos net) [] (by simp) hnd,
        List.nil_append]
    have hlangs_nodup : ((dashRecordOf net username).languages.map Prod.fst).Nodup := by
      rw [dashRecordOf_langs]
      exact foldl_dset_keys_nodup repoLang
        (fun acc r => dgetD acc (repoLang r) 0 + orNat r.size)
        (dashRepos net) [] (by simp)
    have hcpl : (dashRecordOf net username).commitsPerLanguage
        = (dashRecordOf net username).languages.map (fun p =>
            (p.1, (((dashRepos net).filter (fun r => decide (repoLang r = p.1))).map
              (fun r => dgetD (dashRecordOf net username).commitsPerRepo
                (orStr r.name "") 0)).sum)) := by
      rw [dashRecordOf_cpl]
      unfold commitsPerLanguageOf
      rw [foldl_dset_fresh Prod.fst
        (fun p => (((dashRepos net).filter (fun r => decide (repoLang r = p.1))).map
          (fun r => dgetD (dashRecordOf net username).commitsPerRepo
            (orStr r.name "") 0)).sum)
        ((dashRecordOf net username).languages) [] (by simp) hlangs_nodup,
        List.nil_append]
    have hfib : ∀ k : String,
        (((dashRepos net).filter (fun r => decide (repoLang r = k))).map
          (fun r => dgetD (dashRecordOf net username).commitsPerRepo
            (orStr r.name "") 0)).sum
        = (((dashRepos net).filter (fun r => decide (repoLang r = k))).map
          (fun r => dgetD (dashRecordOf net username).commitsPerRepo
            (repoName r) 0)).sum := by
      intro k
      congr 1
      apply List.map_congr_left
      intro r hr
      rw [validName_orStr (hnames r (List.mem_of_mem_filter hr))]
  · -- per-language fibers
    intro k v hkv
    have hk := dget_mem_keys hkv
    obtain ⟨p, hp, hpk⟩ := List.mem_map.mp hk
    rw [← hpk]
    have h1 : dget ((dashRecordOf net username).commitsPerLanguage) p.1
        = some ((((dashRepos net).filter (fun r => decide (repoLang r = p.1))).map
            (fun r => dgetD (dashRecordOf net username).commitsPerRepo
              (orStr r.name "") 0)).sum) := by
      rw [hcpl]
      exact dget_map_of_nodup Prod.fst _ _ hlangs_nodup hp
    rw [h1]
    rw [hfib p.1]
  · -- total over languages = total over repositories
    have hcov : ∀ r ∈ dashRepos net,
        repoLang r ∈ (dashRecordOf net username).languages.map Prod.fst := by
      intro r hr
      rw [dashRecordOf_langs]
      exact mem_keys_foldl_dset repoLang
        (fun acc r => dgetD acc (repoLang r) 0 + orNat r.size)
        (dashRepos net) [] hr
    have hsk := sum_keys_fiber repoLang
      (fun r => dgetD (dashRecordOf net username).commitsPerRepo (orStr r.name "") 0)
      ((dashRecordOf net username).languages.map Prod.fst) hlangs_nodup
      (dashRepos net) hcov
    have hmm1 : ((dashRecordOf net username).commitsPerLanguage.map Prod.snd).sum
        = (((dashRecordOf net username).languages.map Prod.fst).map (fun k =>
            (((dashRepos net).filter (fun r => decide (repoLang r = k))).map
              (fun r => dgetD (dashRecordOf net username).commitsPerRepo
                (orStr r.name "") 0)).sum)).sum := by
      rw [hcpl, List.map_map, List.map_map]
      rfl
    have hval : ∀ r ∈ dashRepos net,
        dgetD (dashRecordOf net username).commitsPerRepo (orStr r.name "") 0
          = get_commit_count (net.commitCount (repoName r)) := by
      intro r hr
      rw [validName_orStr (hnames r hr), dgetD, hcpr,
        dget_map_of_nodup repoName
          (fun r => get_commit_count (net.commitCount (repoName r)))
          (dashRepos net) hnd hr]
      rfl
    have hmm2 : ((dashRecordOf net username).commitsPerRepo.map Prod.snd).sum
        = ((dashRepos net).map (fun r =>
            dgetD (dashRecordOf net username).commitsPerRepo (orStr r.name "") 0)).sum := by
      rw [List.map_congr_left hval, hcpr, List.map_map]
      rfl
    rw [hmm1, hsk, hmm2]

/- Concrete network for the C6 witness. -/

def emptyUserJson : UserJson :=
  { name := none, avatarUrl := none, htmlUrl := none, bio := none,
    createdAt := none, followers := none, following := none, publicRepos := none }

def repoX : RepoJson :=
  { name := some "x", language := some "Python", stargazersCount := some 1,
    size := some 5, fork := false, htmlUrl := some "hx" }

def repoY : RepoJson :=
  { name := some "y", language := some "Python", stargazersCount := some 2,
    size := some 3, fork := false, htmlUrl := some "hy" }

def dashNetXY : DashNet :=
  { user := fun _ => { status := 200, body := emptyUserJson }
    repos := { status := 200, body := [repoX, repoY] }
    starred := { status := 404, body := [] }
    commitCount := fun nm =>
      if nm = "x" then { status := 200, link := none, bodyLen := 2 }
      else { status := 200, link := none, bodyLen := 3 }
    commits100 := fun _ => { status := 404, dates := [] } }

theorem C6_witness :
    (dashNetXY.user 0).status = 200 ∧
    (∀ r ∈ dashRepos dashNetXY, r.name ≠ none ∧ r.name ≠ some "") ∧
    ((dashRepos dashNetXY).map repoName).Nodup ∧
    (∃ rec, fetch_user_data dashNetXY "u" = some rec ∧
      (∀ k v, dget rec.languages k = some v →
        dget rec.commitsPerLanguage k
          = some ((((dashRepos dashNetXY).filter (fun r => decide (repoLang r = k))).map
              (fun r => dgetD rec.commitsPerRepo (repoName r) 0)).sum)) ∧
      (rec.commitsPerLanguage.map Prod.snd).sum
        = (rec.commitsPerRepo.map Prod.snd).sum ∧
      rec.totalCommits = (rec.commitsPerRepo.map Prod.snd).sum) :=
  ⟨rfl, by decide, by decide,
    C6_language_commit_partition dashNetXY "u" rfl (by decide) (by decide)⟩

/- Loop lemmas for `get_total_commits`. -/

theorem totalCommitsLoop_forks (probe : Nat → Probe) :
    ∀ (repos : List Repo1) (i t : Nat), (∀ r ∈ repos, r.fork = true) →
      totalCommitsLoop probe repos i t = t := by
  intro repos
  induction repos with
  | nil => intro i t _; rfl
  | cons r rest ih =>
    intro i t hall
    simp only [totalCommitsLoop]
    rw [if_pos (hall r (List.mem_cons_self r rest))]
    exact ih (i + 1) t (fun x hx => hall x (List.mem_cons_of_mem r hx))

theorem totalCommitsLoop_link_blind (probe : Nat → Probe) (f : Nat → Option String) :
    ∀ (repos : List Repo1) (i t : Nat),
      totalCommitsLoop (fun j => { probe j with link := f j }) repos i t
        = totalCommitsLoop probe repos i t := by
  intro repos
  induction repos with
  | nil => intro i t; rfl
  | cons r rest ih =>
    intro i t
    simp only [totalCommitsLoop]
    by_cases hf : r.fork = true
    · rw [if_pos hf, if_pos hf]
      exact ih (i + 1) t
    · rw [if_neg hf, if_neg hf]
      exact ih (i + 1) _

theorem totalCommitsLoop_le (probe : Nat → Probe) (hle : ∀ i, (probe i).bodyLen ≤ 1) :
    ∀ (repos : List Repo1) (i t : Nat),
      totalCommitsLoop probe repos i t ≤ t + (repos.filter (fun r => !r.fork)).length := by
  intro repos
  induction repos with
  | nil =>
    intro i t
    simp [totalCommitsLoop]
  | cons r rest ih =>
    intro i t
    simp only [totalCommitsLoop, List.filter_cons]
    by_cases hf : r.fork = true
    · rw [if_pos hf]
      have hb : (!r.fork) = false := by simp [hf]
      rw [hb]
      simp only [Bool.false_eq_true, if_false]
      exact ih (i + 1) t
    · rw [if_neg hf]
      have hb : (!r.fork) = true := by simp [Bool.not_eq_true] at hf; simp [hf]
      rw [hb]
      simp only [if_true]
      have h1 := ih (i + 1)
        (if (probe i).status = 200 ∧ (probe i).isList then t + (probe i).bodyLen else t)
      have h2 : (if (probe i).status = 200 ∧ (probe i).isList
          then t + (probe i).bodyLen else t) ≤ t + 1 := by
        split
        · have := hle i
          omega
        · omega
      have h3 : (r :: rest.filter (fun x => !x.fork)).length
          = (rest.filter (fun x => !x.fork)).length + 1 := by
        simp [List.length_cons]
      omega

/- C5: commit counting. -/

def forkRepo : RepoJson :=
  { name := some "r", language := some "Python", stargazersCount := some 0,
    size := some 10, fork := true, htmlUrl := some "hu" }

def dashForkNet : DashNet :=
  { user := fun _ => { status := 200, body := emptyUserJson }
    repos := { status := 200, body := [forkRepo] }
    starred := { status := 404, body := [] }
    commitCount := fun _ => { status := 200, link := none, bodyLen := 7 }
    commits100 := fun _ => { status := 404, dates := [] } }

/-- C5 counterexample: `dashboard.py` counts the commits of forked
repositories too.  With a single forked repository whose commit request
answers 7 commits, the stored `Total Commits` is 7 — counting over
non-fork repositories only, as the claim states, would give 0. -/
theorem C5_counterexample :
    (∀ r ∈ dashForkNet.repos.body, r.fork = true) ∧
    (fetch_user_data dashForkNet "u").map (fun rec => rec.totalCommits) = some 7 :=
  ⟨by decide, rfl⟩

/-- A `Link` header with a `rel="last"` part pointing at page 42. -/
def linkFull42 : String :=
  "<https://api.github.com/repositories/1/commits?per_page=1&page=2>; rel=\"next\", <https://api.github.com/repositories/1/commits?per_page=1&page=42>; rel=\"last\""

/-- A `Link` header without any `rel="last"` part. -/
def linkNextOnly : String :=
  "<https://api.github.com/repositories/1/commits?per_page=1&page=2>; rel=\"next\""

/-- C5 (amended): in `dashboard.py` the per-repository count is read from
the `Link` header's `rel="last"` page number when present, falling back to
the body length, and the total is aggregated over ALL fetched
repositories, forks included; in `Recommendation_dashboard.py`,
`get_total_commits` skips forks but sums the `per_page=1` body lengths and
never consults the `Link` header. -/
theorem C5_commit_counting_amended :
    (∀ L : Nat,
      get_commit_count { status := 200, link := some linkFull42, bodyLen := L } = 42 ∧
      get_commit_count { status := 200, link := none, bodyLen := L } = (L : Int) ∧
      get_commit_count { status := 200, link := some linkNextOnly, bodyLen := L } = (L : Int) ∧
      get_commit_count { status := 404, link := some linkFull42, bodyLen := L } = 0) ∧
    (∀ (net : DashNet) (username : String),
      (net.user 0).status = 200 →
      ((dashRepos net).map repoName).Nodup →
      ∃ rec, fetch_user_data net username = some rec ∧
        rec.totalCommits = ((dashRepos net).map
          (fun r => get_commit_count (net.commitCount (repoName r)))).sum) ∧
    (∀ (reposSrc : JsonSrc (List Repo1)) (probe : Nat → Probe) (repos : List Repo1),
      (get_json reposSrc).result = Except.ok repos →
      (∀ r ∈ repos, r.fork = true) →
      get_total_commits reposSrc probe = 0) ∧
    (∀ (reposSrc : JsonSrc (List Repo1)) (probe : Nat → Probe) (f : Nat → Option String),
      get_total_commits reposSrc (fun j => { probe j with link := f j })
        = get_total_commits reposSrc probe) := by
  refine ⟨fun L => ⟨rfl, rfl, rfl, rfl⟩, ?_, ?_, ?_⟩
  · intro net username hu hnd
    refine ⟨dashRecordOf net username, ?_, ?_⟩
    · unfold fetch_user_data
      rw [if_neg (by simp [hu])]
    · have hcpr : (dashRecordOf net username).commitsPerRepo
          = (dashRepos net).map (fun r =>
              (repoName r, get_commit_count (net.commitCount (repoName r)))) := by
        rw [dashRecordOf_cpr,
          foldl_dset_fresh repoName
            (fun r => get_commit_count (net.commitCount (repoName r)))
            (dashRepos net) [] (by simp) hnd,
          List.nil_append]
      rw [dashRecordOf_total, hcpr, List.map_map]
      rfl
  · intro reposSrc probe repos hok hall
    unfold get_total_commits
    rw [hok]
    exact totalCommitsLoop_forks probe repos 0 0 hall
  · intro reposSrc probe f
    unfold get_total_commits
    cases hres : (get_json reposSrc).result with
    | error e => rfl
    | ok repos => exact totalCommitsLoop_link_blind probe f repos 0 0

def probeOneEx : Nat → Probe :=
  fun _ => { status := 200, isList := true, bodyLen := 1, link := none }

def srcForksEx : JsonSrc (List Repo1) :=
  fun _ => { status := 200, body := [{ fork := true }] }

theorem C5_commit_counting_amended_witness :
    (get_commit_count { status := 200, link := some linkFull42, bodyLen := 5 } = 42 ∧
      get_commit_count { status := 200, link := none, bodyLen := 5 } = (5 : Int) ∧
      get_commit_count { status := 200, link := some linkNextOnly, bodyLen := 5 } = (5 : Int) ∧
      get_commit_count { status := 404, link := some linkFull42, bodyLen := 5 } = 0) ∧
    ((dashNetXY.user 0).status = 200 ∧
      ((dashRepos dashNetXY).map repoName).Nodup ∧
      ∃ rec, fetch_user_data dashNetXY "u" = some rec ∧
        rec.totalCommits = ((dashRepos dashNetXY).map
          (fun r => get_commit_count (dashNetXY.commitCount (repoName r)))).sum) ∧
    ((get_json srcForksEx).result = Except.ok [{ fork := true }] ∧
      (∀ r ∈ [({ fork := true } : Repo1)], r.fork = true) ∧
      get_total_commits srcForksEx probeOneEx = 0) ∧
    get_total_commits srcForksEx (fun j => { probeOneEx j with link := some "x" })
      = get_total_commits srcForksEx probeOneEx :=
  ⟨C5_commit_counting_amended.1 5,
    ⟨rfl, by decide,
      C5_commit_counting_amended.2.1 dashNetXY "u" rfl (by decide)⟩,
    ⟨rfl, by decide,
      C5_commit_counting_amended.2.2.1 srcForksEx probeOneEx [{ fork := true }] rfl (by decide)⟩,
    C5_commit_counting_amended.2.2.2 srcForksEx probeOneEx (fun _ => some "x")⟩

/-- C9: in the recommendation pipeline, when the remote API honours
`per_page=1` (every probed commit-list body has at most one element), the
stored `Total Commits` is at most the number of non-fork repositories. -/
theorem C9_total_commits_le_nonforks :
    ∀ {α : Type} [DecidableEq α] (s : MStore α) (enc : Rec1Record → MDoc α)
      (key : String → α) (net : Rec1Net) (username : String)
      (s2 : MStore α) (data : Rec1Record) (repos : List Repo1),
      (∀ i, (net.commitsProbe i).bodyLen ≤ 1) →
      (get_json net.reposC).result = Except.ok repos →
      fetch_and_store_user s enc key net username = (s2, some data) →
      data.totalCommits ≤ (repos.filter (fun r => !r.fork)).length := by
  intro α inst s enc key net username s2 data repos hle hok hfetch
  have hdata : data.totalCommits = get_total_commits net.reposC net.commitsProbe := by
    unfold fetch_and_store_user at hfetch
    cases hres : (get_json net.user).result with
    | error e =>
      rw [hres] at hfetch
      simp at hfetch
    | ok u =>
      rw [hres] at hfetch
      have h2 := congrArg Prod.snd hfetch
      simp only [Option.some_inj] at h2
      rw [← h2]
      rfl
  rw [hdata]
  unfold get_total_commits
  rw [hok]
  simpa using totalCommitsLoop_le net.commitsProbe hle repos 0 0

def userJson1Ex : UserJson1 :=
  { login := some "u", name := none, bio := none, publicRepos := some 2,
    followers := none, following := none, createdAt := none, updatedAt := none,
    avatarUrl := none, htmlUrl := none }

def errListSrc : JsonSrc (List (Option String)) := fun _ => { status := 500, body := [] }

def rec1ReposEx : List Repo1 := [{ fork := false }, { fork := true }]

def rec1NetEx : Rec1Net :=
  { user := fun _ => { status := 200, body := userJson1Ex }
    followers := errListSrc
    following := errListSrc
    starred := errListSrc
    subs := errListSrc
    orgs := errListSrc
    reposL := fun _ => { status := 500, body := [] }
    langs := fun _ => fun _ => { status := 500, body := [] }
    reposC := fun _ => { status := 200, body := rec1ReposEx }
    commitsProbe := probeOneEx }

def encEx : Rec1Record → MDoc Nat := fun _ => []

def keyEx : String → Nat := fun _ => 0

def rec1DataEx : Rec1Record :=
  { login := some "u", name := none, bio := none, publicRepos := some 2,
    followersCount := none, followingCount := none, createdAt := none,
    updatedAt := none, avatarUrl := none, profileUrl := none,
    followersList := [], followingList := [], starredRepositories := [],
    subscriptions := [], organizations := [], languages := [], totalCommits := 1 }

def storeEx : MStore Nat := [[("Login", 0)]]

theorem C9_witness :
    (∀ i, (rec1NetEx.commitsProbe i).bodyLen ≤ 1) ∧
    (get_json rec1NetEx.reposC).result = Except.ok rec1ReposEx ∧
    fetch_and_store_user ([] : MStore Nat) encEx keyEx rec1NetEx "u"
      = (storeEx, some rec1DataEx) ∧
    rec1DataEx.totalCommits ≤ (rec1ReposEx.filter (fun r => !r.fork)).length :=
  ⟨fun _ => Nat.le_refl 1, rfl, rfl,
    C9_total_commits_le_nonforks ([] : MStore Nat) encEx keyEx rec1NetEx "u"
      storeEx rec1DataEx rec1ReposEx (fun _ => Nat.le_refl 1) rfl rfl⟩

/- applySet field lemmas (C3). -/

theorem dget_cons_ne {α : Type} {p : String × α} {rest : MDoc α} {k : String}
    (hp : ¬p.1 = k) : dget (p :: rest) k = dget rest k := by
  unfold dget
  rw [List.find?_cons]
  have hfalse : decide (p.1 = k) = false := by simp [hp]
  rw [hfalse]

theorem dget_applySet_none {α : Type} :
    ∀ (upd d : MDoc α) (k : String), dget upd k = none →
      dget (applySet d upd) k = dget d k := by
  intro upd
  induction upd with
  | nil => intro d k _; rfl
  | cons p rest ih =>
    intro d k h
    have hp : ¬p.1 = k := by
      intro hc
      unfold dget at h
      rw [List.find?_cons] at h
      simp [hc] at h
    have hrest : dget rest k = none := by
      rw [← dget_cons_ne hp]
      exact h
    show dget (applySet (dset d p.1 p.2) rest) k = dget d k
    rw [ih _ k hrest, dget_dset_ne p.1 k p.2 (fun hc => hp hc.symm) d]

theorem dget_applySet_some {α : Type} :
    ∀ (upd d : MDoc α) (k : String) (v : α),
      (upd.map Prod.fst).Nodup → dget upd k = some v →
      dget (applySet d upd) k = some v := by
  intro upd
  induction upd with
  | nil =>
    intro d k v _ h
    simp [dget] at h
  | cons p rest ih =>
    intro d k v hnd h
    simp only [List.map_cons] at hnd
    have hnd2 : (rest.map Prod.fst).Nodup := (List.nodup_cons.mp hnd).2
    by_cases hp : p.1 = k
    · have hv : p.2 = v := by
        unfold dget at h
        rw [List.find?_cons] at h
        simp [hp] at h
        exact h
      have hknotin : k ∉ rest.map Prod.fst := by
        have h1 := (List.nodup_cons.mp hnd).1
        rw [hp] at h1
        exact h1
      have hrest : dget rest k = none := by
        unfold dget
        rw [List.find?_eq_none.mpr]
        · rfl
        · intro q hq
          simp only [decide_eq_true_eq]
          intro hc
          exact hknotin (hc ▸ List.mem_map_of_mem Prod.fst hq)
      show dget (applySet (dset d p.1 p.2) rest) k = some v
      rw [dget_applySet_none rest _ k hrest, hp, dget_dset_self k p.2 d, hv]
    · have hrest : dget rest k = some v := by
        rw [← dget_cons_ne hp]
        exact h
      exact ih (dset d p.1 p.2) k v hnd2 hrest

def mergeStore : MStore Nat := [[("Login", 0), ("Platforms", 5)]]

def newRecDoc : MDoc Nat := [("Login", 0), ("Total Commits", 9)]

/-- C3 counterexample: the put of `Recommendation_dashboard.py`
(`update_one` with `$set`, upsert) merges field-wise instead of replacing:
a stored field absent from the new record (here `Platforms`, as written by
the other pipeline into the shared collection) survives the put, so the
stored record does not consist of exactly the new record's fields. -/
theorem C3_counterexample :
    update_one mergeStore [("Login", 0)] newRecDoc
      = [[("Login", 0), ("Platforms", 5), ("Total Commits", 9)]] ∧
    dget ((update_one mergeStore [("Login", 0)] newRecDoc).headD []) "Platforms" = some 5 ∧
    dget newRecDoc "Platforms" = none :=
  ⟨rfl, rfl, rfl⟩

/-- C3 (amended): put on an existing login applies `$set` semantics: every
field of the new record is written over the stored document and stored
fields absent from the new record are preserved; only when the stored
record's field set is contained in the new record's does the result carry
exactly the new record's fields.  The other pipeline's put
(`insert_one`) is a bare append, never a replace. -/
theorem C3_upsert_set_semantics (α : Type) [DecidableEq α] :
    (∀ (d upd flt : MDoc α) (rest : MStore α),
      (upd.map Prod.fst).Nodup →
      matchesFilter flt d = true →
      update_one (d :: rest) flt upd = applySet d upd :: rest ∧
      (∀ k v, dget upd k = some v → dget (applySet d upd) k = some v) ∧
      (∀ k, dget upd k = none → dget (applySet d upd) k = dget d k) ∧
      ((∀ k, dget d k ≠ none → dget upd k ≠ none) →
        ∀ k, dget (applySet d upd) k = dget upd k)) ∧
    (∀ (s : MStore α) (doc : MDoc α), insert_one s doc = s ++ [doc]) := by
  constructor
  · intro d upd flt rest hnd hmatch
    refine ⟨?_, ?_, ?_, ?_⟩
    · unfold update_one
      rw [if_pos hmatch]
    · intro k v h
      exact dget_applySet_some upd d k v hnd h
    · intro k h
      exact dget_applySet_none upd d k h
    · intro hcover k
      cases hupd : dget upd k with
      | some v => exact dget_applySet_some upd d k v hnd hupd
      | none =>
        rw [dget_applySet_none upd d k hupd]
        cases hd : dget d k with
        | none => rfl
        | some w =>
          exact absurd hupd (hcover k (by rw [hd]; exact Option.noConfusion))
  · intro s doc
    rfl

theorem C3_upsert_set_semantics_witness :
    ((newRecDoc.map Prod.fst).Nodup ∧
      matchesFilter [("Login", 0)] [("Login", 0), ("Platforms", 5)] = true ∧
      (update_one ([("Login", 0), ("Platforms", 5)] :: ([] : MStore Nat))
          [("Login", 0)] newRecDoc
        = applySet [("Login", 0), ("Platforms", 5)] newRecDoc :: [] ∧
      (∀ k v, dget newRecDoc k = some v →
        dget (applySet [("Login", 0), ("Platforms", 5)] newRecDoc) k = some v) ∧
      (∀ k, dget newRecDoc k = none →
        dget (applySet [("Login", 0), ("Platforms", 5)] newRecDoc) k
          = dget [("Login", 0), ("Platforms", 5)] k) ∧
      ((∀ k, dget [("Login", 0), ("Platforms", 5)] k ≠ none → dget newRecDoc k ≠ none) →
        ∀ k, dget (applySet [("Login", 0), ("Platforms", 5)] newRecDoc) k
          = dget newRecDoc k))) ∧
    insert_one ([] : MStore Nat) [("Login", 7)] = [] ++ [[("Login", 7)]] :=
  ⟨⟨by decide, by decide,
    (C3_upsert_set_semantics Nat).1 [("Login", 0), ("Platforms", 5)] newRecDoc
      [("Login", 0)] [] (by decide) (by decide)⟩,
    (C3_upsert_set_semantics Nat).2 [] [("Login", 7)]⟩

/- C2: rate-limit handling. -/

def dashRateLimitedNet : DashNet :=
  { user := fun n => if n = 0 then { status := 403, body := emptyUserJson }
      else { status := 200, body := emptyUserJson }
    repos := { status := 200, body := [] }
    starred := { status := 200, body := [] }
    commitCount := fun _ => { status := 200, link := none, bodyLen := 0 }
    commits100 := fun _ => { status := 200, dates := [] } }

/-- C2 counterexample: in `dashboard.py` a rate-limited (403) primary
request is neither retried nor followed by any suspension: although a
retry would succeed (attempt 1 of the oracle answers 200),
`fetch_user_data` surfaces the failure immediately — while the same
oracle, run through the retrying `get_json` helper of the other pipeline,
succeeds. -/
theorem C2_counterexample :
    (dashRateLimitedNet.user 0).status = 403 ∧
    (dashRateLimitedNet.user 1).status = 200 ∧
    fetch_user_data dashRateLimitedNet "u" = none ∧
    (get_json dashRateLimitedNet.user).result = Except.ok emptyUserJson :=
  ⟨rfl, rfl, rfl, rfl⟩

/-- C2 (amended): the recommendation pipeline's `get_json` implements the
rate-limit policy — a 403 first response causes exactly one 60-second
suspension and exactly one retry, a failing retry is surfaced with no
further retry or wait, and a non-403 first response causes no sleep and no
retry — while `dashboard.py` performs no rate-limit handling at all: a 403
primary response makes `fetch_user_data` fail immediately. -/
theorem C2_rate_limit_policy (α : Type) :
    (∀ src : JsonSrc α, (src 0).status = 403 →
      (get_json src).sleptSeconds = 60 ∧ (get_json src).requests = 2 ∧
      (isHttpError (src 1).status = false →
        (get_json src).result = Except.ok (src 1).body) ∧
      (isHttpError (src 1).status = true →
        (get_json src).result = Except.error (src 1).status)) ∧
    (∀ src : JsonSrc α, (src 0).status ≠ 403 →
      (get_json src).sleptSeconds = 0 ∧ (get_json src).requests = 1) ∧
    (∀ (net : DashNet) (username : String), (net.user 0).status = 403 →
      fetch_user_data net username = none) := by
  refine ⟨?_, ?_, ?_⟩
  · intro src h
    simp only [get_json, if_pos h]
    refine ⟨by trivial, by trivial, ?_, ?_⟩
    · intro he
      simp [he]
    · intro he
      simp [he]
  · intro src h
    simp only [get_json, if_neg h]
    exact ⟨by trivial, by trivial⟩
  · intro net username h
    unfold fetch_user_data
    rw [if_pos]
    rw [h]
    decide

def srcRetryOkEx : JsonSrc Nat :=
  fun n => if n = 0 then { status := 403, body := 0 } else { status := 200, body := 5 }

def srcRetryFailEx : JsonSrc Nat := fun _ => { status := 403, body := 0 }

def srcPlainEx : JsonSrc Nat := fun _ => { status := 200, body := 7 }

theorem C2_rate_limit_policy_witness :
    ((srcRetryOkEx 0).status = 403 ∧
      (get_json srcRetryOkEx).sleptSeconds = 60 ∧
      (get_json srcRetryOkEx).requests = 2 ∧
      (get_json srcRetryOkEx).result = Except.ok 5) ∧
    ((srcRetryFailEx 0).status = 403 ∧
      (get_json srcRetryFailEx).sleptSeconds = 60 ∧
      (get_json srcRetryFailEx).requests = 2 ∧
      (get_json srcRetryFailEx).result = Except.error 403) ∧
    ((srcPlainEx 0).status ≠ 403 ∧
      (get_json srcPlainEx).sleptSeconds = 0 ∧ (get_json srcPlainEx).requests = 1) ∧
    ((dashRateLimitedNet.user 0).status = 403 ∧
      fetch_user_data dashRateLimitedNet "w" = none) :=
  ⟨⟨rfl, ((C2_rate_limit_policy Nat).1 srcRetryOkEx rfl).1,
      ((C2_rate_limit_policy Nat).1 srcRetryOkEx rfl).2.1,
      ((C2_rate_limit_policy Nat).1 srcRetryOkEx rfl).2.2.1 rfl⟩,
    ⟨rfl, ((C2_rate_limit_policy Nat).1 srcRetryFailEx rfl).1,
      ((C2_rate_limit_policy Nat).1 srcRetryFailEx rfl).2.1,
      ((C2_rate_limit_policy Nat).1 srcRetryFailEx rfl).2.2.2 rfl⟩,
    ⟨by decide, (C2_rate_limit_policy Nat).2.1 srcPlainEx (by decide)⟩,
    ⟨rfl, (C2_rate_limit_policy Nat).2.2 dashRateLimitedNet "w" rfl⟩⟩

/- C7: partial-data policy. -/

theorem get_list_error {src : JsonSrc (List (Option String))} {e : Nat}
    (h : (get_json src).result = Except.error e) : get_list src = [] := by
  unfold get_list
  rw [h]

theorem get_starred_or_subs_error {src : JsonSrc (List (Option String))} {e : Nat}
    (h : (get_json src).result = Except.error e) : get_starred_or_subs src = [] := by
  unfold get_starred_or_subs
  rw [h]

theorem get_languages_error {reposSrc : JsonSrc (List Repo1)}
    {langsSrc : Nat → JsonSrc (List (String × Nat))} {e : Nat}
    (h : (get_json reposSrc).result = Except.error e) :
    get_languages reposSrc langsSrc = [] := by
  unfold get_languages
  rw [h]

theorem get_total_commits_error {reposSrc : JsonSrc (List Repo1)}
    {probe : Nat → Probe} {e : Nat}
    (h : (get_json reposSrc).result = Except.error e) :
    get_total_commits reposSrc probe = 0 := by
  unfold get_total_commits
  rw [h]

/-- C7: whenever the primary profile request succeeds, a failing secondary
endpoint does not abort the fetch — the affected field degrades to an
empty collection (or zero) and a complete record is still returned, in
both pipelines. -/
theorem C7_secondary_failures_degrade :
    (∀ (net : DashNet) (username : String), (net.user 0).status = 200 →
      ∃ rec, fetch_user_data net username = some rec ∧
        (net.repos.status ≠ 200 →
          rec.languages = [] ∧ rec.commitsPerRepo = [] ∧ rec.starsPerRepo = [] ∧
          rec.starsPerLanguage = [] ∧ rec.commitsPerLanguage = [] ∧
          rec.commitDates = [] ∧ rec.totalCommits = 0) ∧
        (net.starred.status ≠ 200 → rec.starredRepositories = [])) ∧
    (∀ (α : Type) [DecidableEq α] (s : MStore α) (enc : Rec1Record → MDoc α)
        (key : String → α) (net : Rec1Net) (username : String) (u : UserJson1),
      (get_json net.user).result = Except.ok u →
      ∃ s2 data, fetch_and_store_user s enc key net username = (s2, some data) ∧
        (∀ e, (get_json net.followers).result = Except.error e →
          data.followersList = []) ∧
        (∀ e, (get_json net.following).result = Except.error e →
          data.followingList = []) ∧
        (∀ e, (get_json net.starred).result = Except.error e →
          data.starredRepositories = []) ∧
        (∀ e, (get_json net.subs).result = Except.error e →
          data.subscriptions = []) ∧
        (∀ e, (get_json net.orgs).result = Except.error e →
          data.organizations = []) ∧
        (∀ e, (get_json net.reposL).result = Except.error e →
          data.languages = []) ∧
        (∀ e, (get_json net.reposC).result = Except.error e →
          data.totalCommits = 0)) := by
  constructor
  · intro net username hu
    refine ⟨dashRecordOf net username, ?_, ?_, ?_⟩
    · unfold fetch_user_data
      rw [if_neg (by simp [hu])]
    · intro hrep
      have hrepos : dashRepos net = [] := by
        unfold dashRepos
        rw [if_neg hrep]
      have hL : (dashRecordOf net username).languages = [] := by
        rw [dashRecordOf_langs, hrepos]
        rfl
      have hcpr0 : (dashRecordOf net username).commitsPerRepo = [] := by
        rw [dashRecordOf_cpr, hrepos]
        rfl
      have hspr : (dashRecordOf net username).starsPerRepo = [] := by
        have h0 : (dashRecordOf net username).starsPerRepo
            = ((dashRepos net).foldl (loopStep net) initLoopSt).starsPerRepo := rfl
        rw [h0, hrepos]
        rfl
      have hsprl : (dashRecordOf net username).starsPerLanguage = [] := by
        have h0 : (dashRecordOf net username).starsPerLanguage
            = ((dashRepos net).foldl (loopStep net) initLoopSt).starsPerLanguage := rfl
        rw [h0, hrepos]
        rfl
      have hdates : (dashRecordOf net username).commitDates = [] := by
        have h0 : (dashRecordOf net username).commitDates
            = ((dashRepos net).foldl (loopStep net) initLoopSt).commitDates := rfl
        rw [h0, hrepos]
        rfl
      have hcpl0 : (dashRecordOf net username).commitsPerLanguage = [] := by
        rw [dashRecordOf_cpl, hL]
        rfl
      have htot : (dashRecordOf net username).totalCommits = 0 := by
        rw [dashRecordOf_total, hcpr0]
        rfl
      exact ⟨hL, hcpr0, hspr, hsprl, hcpl0, hdates, htot⟩
    · intro hst
      have h0 : (dashRecordOf net username).starredRepositories
          = (if net.starred.status = 200 then net.starred.body else []).map
              (fun r => r.htmlUrl) := rfl
      rw [h0, if_neg hst]
      rfl
  · intro α inst s enc key net username u hu
    refine ⟨update_one s [("Login", key username)] (enc (rec1Data net u)),
      rec1Data net u, ?_, ?_, ?_, ?_, ?_, ?_, ?_, ?_⟩
    · unfold fetch_and_store_user
      rw [hu]
    · intro e he
      exact get_list_error he
    · intro e he
      exact get_list_error he
    · intro e he
      exact get_starred_or_subs_error he
    · intro e he
      exact get_starred_or_subs_error he
    · intro e he
      exact get_list_error he
    · intro e he
      exact get_languages_error he
    · intro e he
      exact get_total_commits_error he

def dashNetAllFail : DashNet :=
  { user := fun _ => { status := 200, body := emptyUserJson }
    repos := { status := 500, body := [repoX] }
    starred := { status := 500, body := [repoX] }
    commitCount := fun _ => { status := 200, link := none, bodyLen := 4 }
    commits100 := fun _ => { status := 200, dates := [some "2021-01-01T00:00:00Z"] } }

def rec1NetAllFail : Rec1Net :=
  { user := fun _ => { status := 200, body := userJson1Ex }
    followers := errListSrc
    following := errListSrc
    starred := errListSrc
    subs := errListSrc
    orgs := errListSrc
    reposL := fun _ => { status := 500, body := [] }
    langs := fun _ => fun _ => { status := 500, body := [] }
    reposC := fun _ => { status := 500, body := [] }
    commitsProbe := probeOneEx }

theorem C7_witness :
    ((dashNetAllFail.user 0).status = 200 ∧
      ∃ rec, fetch_user_data dashNetAllFail "u" = some rec ∧
        (dashNetAllFail.repos.status ≠ 200 →
          rec.languages = [] ∧ rec.commitsPerRepo = [] ∧ rec.starsPerRepo = [] ∧
          rec.starsPerLanguage = [] ∧ rec.commitsPerLanguage = [] ∧
          rec.commitDates = [] ∧ rec.totalCommits = 0) ∧
        (dashNetAllFail.starred.status ≠ 200 → rec.starredRepositories = [])) ∧
    ((get_json rec1NetAllFail.user).result = Except.ok userJson1Ex ∧
      ∃ s2 data, fetch_and_store_user ([] : MStore Nat) encEx keyEx rec1NetAllFail "u"
          = (s2, some data) ∧
        (∀ e, (get_json rec1NetAllFail.followers).result = Except.error e →
          data.followersList = []) ∧
        (∀ e, (get_json rec1NetAllFail.following).result = Except.error e →
          data.followingList = []) ∧
        (∀ e, (get_json rec1NetAllFail.starred).result = Except.error e →
          data.starredRepositories = []) ∧
        (∀ e, (get_json rec1NetAllFail.subs).result = Except.error e →
          data.subscriptions = []) ∧
        (∀ e, (get_json rec1NetAllFail.orgs).result = Except.error e →
          data.organizations = []) ∧
        (∀ e, (get_json rec1NetAllFail.reposL).result = Except.error e →
          data.languages = []) ∧
        (∀ e, (get_json rec1NetAllFail.reposC).result = Except.error e →
          data.totalCommits = 0)) :=
  ⟨⟨rfl, C7_secondary_failures_degrade.1 dashNetAllFail "u" rfl⟩,
    ⟨rfl, C7_secondary_failures_degrade.2 Nat ([] : MStore Nat) encEx keyEx
      rec1NetAllFail "u" userJson1Ex rfl⟩⟩

/- C8: store side effects of the two fetchers. -/

/-- C8 counterexample: `fetch_and_store_user` — the fetch operation of the
recommendation pipeline — writes to the persistent store itself: starting
from an empty collection it leaves one upserted document behind. -/
theorem C8_counterexample :
    (fetch_and_store_user ([] : MStore Nat) encEx keyEx rec1NetEx "u").1 = storeEx ∧
    storeEx ≠ ([] : MStore Nat) :=
  ⟨rfl, by decide⟩

/-- C8 (amended): `fetch_user_data` (pipeline 2) has no store side effect —
the store interaction around it leaves the collection unchanged on a cache
hit and on a failed fetch, and the single insert after a successful fetch
is performed by the caller; `fetch_and_store_user` (pipeline 1), in
contrast, persists the fetched record itself via one upsert, and leaves
the store unchanged only when the primary fetch fails. -/
theorem C8_store_effect (α : Type) [DecidableEq α] :
    (∀ (s : MStore α) (enc : DashRecord → MDoc α) (key : String → α)
        (net : DashNet) (username : String),
      (∀ d, find_one s [("Login", key username)] = some d →
        dashboardStep s enc key net username = (s, some d)) ∧
      (find_one s [("Login", key username)] = none →
        fetch_user_data net username = none →
        dashboardStep s enc key net username = (s, none)) ∧
      (∀ u, find_one s [("Login", key username)] = none →
        fetch_user_data net username = some u →
        dashboardStep s enc key net username = (insert_one s (enc u), some (enc u)))) ∧
    (∀ (s : MStore α) (enc : Rec1Record → MDoc α) (key : String → α)
        (net : Rec1Net) (username : String),
      (∀ e, (get_json net.user).result = Except.error e →
        fetch_and_store_user s enc key net username = (s, none)) ∧
      (∀ u, (get_json net.user).result = Except.ok u →
        fetch_and_store_user s enc key net username
          = (update_one s [("Login", key username)] (enc (rec1Data net u)),
             some (rec1Data net u)))) := by
  constructor
  · intro s enc key net username
    refine ⟨?_, ?_, ?_⟩
    · intro d hd
      unfold dashboardStep
      rw [hd]
    · intro hmiss hfail
      unfold dashboardStep
      rw [hmiss, hfail]
    · intro u hmiss hok
      unfold dashboardStep
      rw [hmiss, hok]
  · intro s enc key net username
    refine ⟨?_, ?_⟩
    · intro e he
      unfold fetch_and_store_user
      rw [he]
    · intro u hu
      unfold fetch_and_store_user
      rw [hu]

def encDashEx : DashRecord → MDoc Nat := fun _ => [("Login", 0)]

def hitStore : MStore Nat := [[("Login", 0), ("Extra", 3)]]

theorem C8_store_effect_witness :
    (find_one hitStore [("Login", keyEx "u")] = some [("Login", 0), ("Extra", 3)] ∧
      dashboardStep hitStore encDashEx keyEx dashNetXY "u"
        = (hitStore, some [("Login", 0), ("Extra", 3)])) ∧
    (find_one ([] : MStore Nat) [("Login", keyEx "u")] = none ∧
      fetch_user_data dashRateLimitedNet "u" = none ∧
      dashboardStep ([] : MStore Nat) encDashEx keyEx dashRateLimitedNet "u"
        = (([] : MStore Nat), none)) ∧
    (find_one ([] : MStore Nat) [("Login", keyEx "u")] = none ∧
      fetch_user_data dashNetXY "u" = some (dashRecordOf dashNetXY "u") ∧
      dashboardStep ([] : MStore Nat) encDashEx keyEx dashNetXY "u"
        = (insert_one ([] : MStore Nat) (encDashEx (dashRecordOf dashNetXY "u")),
           some (encDashEx (dashRecordOf dashNetXY "u")))) ∧
    ((get_json rec1NetEx.user).result = Except.ok userJson1Ex ∧
      fetch_and_store_user ([] : MStore Nat) encEx keyEx rec1NetEx "u"
        = (update_one ([] : MStore Nat) [("Login", keyEx "u")]
             (encEx (rec1Data rec1NetEx userJson1Ex)),
           some (rec1Data rec1NetEx userJson1Ex))) :=
  ⟨⟨rfl, ((C8_store_effect Nat).1 hitStore encDashEx keyEx dashNetXY "u").1
      [("Login", 0), ("Extra", 3)] rfl⟩,
    ⟨rfl, rfl, ((C8_store_effect Nat).1 ([] : MStore Nat) encDashEx keyEx
      dashRateLimitedNet "u").2.1 rfl rfl⟩,
    ⟨rfl, rfl, ((C8_store_effect Nat).1 ([] : MStore Nat) encDashEx keyEx
      dashNetXY "u").2.2 (dashRecordOf dashNetXY "u") rfl rfl⟩,
    ⟨rfl, ((C8_store_effect Nat).2 ([] : MStore Nat) encEx keyEx
      rec1NetEx "u").2 userJson1Ex rfl⟩⟩
